import Mathlib

/-!
# ssh-baddie backend: session registry, execute-command handler, terminal relay

Shallow embedding of

* `internal/ssh/session.go`  (`SessionManager`),
* `internal/ssh/client.go`   (`ExecuteCommand`),
* `internal/api/handlers.go` (`Handler.ExecuteCommand`),
* `internal/api/terminal.go` (the three pumps of `TerminalWebSocket`).

Go pointers are modelled by `Option` (`none` is `nil`) around an identity or a
record, calls on external collaborators (closing a connection, reading a
stream, sending a frame) are recorded as a trace of `Effect`s, and what the
collaborators answer is scripted input.  Log output (`log.Printf`) is not part
of the traces.
-/

namespace SshBaddie

/-! ## Bytes -/

/-- A Go `[]byte`: the list of byte values (each below 256). -/
abbrev Bytes := List Nat

/-- The bytes of an ASCII text. -/
def ascii (s : String) : Bytes := s.toList.map Char.toNat

/-! ## `internal/ssh/session.go` -/

/-- The Go type `*SFTPClient` points to: `client` is the `*sftp.Client`, `nil` or the
identity of the file-transfer client. -/
structure SFTPClient where
  client : Option Nat
deriving DecidableEq, Repr

/-- The Go struct `Session`; `Client` is the `*ssh.Client` (`nil` or the identity of the
remote connection). -/
structure Session where
  ID : String
  Client : Option Nat
  SFTPClient : Option SFTPClient
deriving DecidableEq, Repr

/-- A `*Session`. -/
abbrev SessionPtr := Option Session

/-- Calls issued to the collaborators of the registry and of the relay. -/
inductive Effect where
  /-- `session.SFTPClient.Close()` on file-transfer client `h`; `failed` is whether it
  returned an error. -/
  | sftpClose (h : Nat) (failed : Bool)
  /-- `session.Client.Close()` on connection `h`. -/
  | clientClose (h : Nat) (failed : Bool)
  /-- `delete(sm.sessions, id)`. -/
  | mapDelete (id : String)
  /-- `ws.WriteMessage(websocket.TextMessage, data)`. -/
  | wsWrite (data : Bytes) (failed : Bool)
  /-- `close(done)`. -/
  | closeDone
  /-- `sshSession.WindowChange(h, w)`. -/
  | windowChange (h w : Int)
  /-- `stdin.Write(data)`. -/
  | stdinWrite (data : Bytes) (failed : Bool)
  /-- `stdin.Close()`. -/
  | stdinClose
deriving DecidableEq, Repr

/-- A Go `map[string]*Session` as an association list with at most one entry per key. -/
abbrev SessionMap := List (String × SessionPtr)

/-- The Go expression `m[id]` with the comma-ok form: `none` when the key is absent. -/
def mapGet : SessionMap → String → Option SessionPtr
  | [], _ => none
  | (k, v) :: rest, id => if k = id then some v else mapGet rest id

/-- The Go statement `delete(m, id)`. -/
def mapDelete (m : SessionMap) (id : String) : SessionMap :=
  m.filter (fun kv => decide (kv.1 ≠ id))

/-- The Go statement `m[id] = v`. -/
def mapSet (m : SessionMap) (id : String) (v : SessionPtr) : SessionMap :=
  (id, v) :: mapDelete m id

/-- The Go struct `SessionManager` (the mutex is what makes each method one atomic step). -/
structure SessionManager where
  sessions : SessionMap
deriving DecidableEq, Repr

/-- How a call ends: it returns an `error` value (`none` is the nil error) or it panics
on a nil pointer dereference. -/
inductive CallResult where
  | returned (err : Option String)
  | panicked
deriving DecidableEq, Repr

def NewSessionManager : SessionManager := ⟨[]⟩

def SessionManager.AddSession (sm : SessionManager) (id : String) (session : SessionPtr) :
    SessionManager :=
  ⟨mapSet sm.sessions id session⟩

def SessionManager.GetSession (sm : SessionManager) (id : String) : Except String SessionPtr :=
  match mapGet sm.sessions id with
  | none => .error "session not found"
  | some session => .ok session

/-- The method `SFTPClient.Close` of `sftp.go`: forwards to the `*sftp.Client`; on a nil one the
call panics (`none`). -/
def SFTPClient.Close (sc : SFTPClient) (failed : Bool) : Option (List Effect) :=
  match sc.client with
  | none => none
  | some h => some [Effect.sftpClose h failed]

/-- The method `RemoveSession`.  `sftpFails` and `clientFails` script what the two `Close`
calls return; the method discards both.  The result is how the call ended, the
registry afterwards and the effects in the order they were issued. -/
def SessionManager.RemoveSession (sm : SessionManager) (id : String)
    (sftpFails clientFails : Bool) : CallResult × SessionManager × List Effect :=
  match mapGet sm.sessions id with
  | none => (.returned (some "session not found"), sm, [])
  | some none => (.panicked, sm, [])
  | some (some session) =>
    let afterSftp : Option (List Effect) :=
      match session.SFTPClient with
      | none => some []
      | some sc => sc.Close sftpFails
    match afterSftp with
    | none => (.panicked, sm, [])
    | some e1 =>
      let e2 : List Effect :=
        match session.Client with
        | none => []
        | some c => [Effect.clientClose c clientFails]
      (.returned none, ⟨mapDelete sm.sessions id⟩, e1 ++ e2 ++ [Effect.mapDelete id])

/-! ### Histories of registry calls -/

/-- One call on the registry. -/
inductive RegistryOp where
  | add (id : String) (session : SessionPtr)
  | get (id : String)
  | remove (id : String) (sftpFails clientFails : Bool)
deriving DecidableEq, Repr

/-- What a registry call answered. -/
inductive RegistryAnswer where
  | added
  | got (r : Except String SessionPtr)
  | removed (r : CallResult)

/-- The state of a run: the registry, every effect issued so far, and the answered calls. -/
structure RegistryRun where
  sm : SessionManager
  trace : List Effect
  history : List (RegistryOp × RegistryAnswer)

def RegistryRun.init : RegistryRun := ⟨NewSessionManager, [], []⟩

/-- One registry call as one atomic step. -/
def RegistryRun.step (r : RegistryRun) (op : RegistryOp) : RegistryRun :=
  match op with
  | .add id s => ⟨r.sm.AddSession id s, r.trace, r.history ++ [(op, .added)]⟩
  | .get id => ⟨r.sm, r.trace, r.history ++ [(op, .got (r.sm.GetSession id))]⟩
  | .remove id f1 f2 =>
    let res := r.sm.RemoveSession id f1 f2
    ⟨res.2.1, r.trace ++ res.2.2, r.history ++ [(op, .removed res.1)]⟩

/-- A sequence of registry calls, starting from `NewSessionManager()`. -/
def runRegistry (ops : List RegistryOp) : RegistryRun :=
  ops.foldl RegistryRun.step RegistryRun.init

/-- The claim's words for C1, read off a history, newest call first: the session passed to the most
recent `AddSession(id, s)` unless a successful `RemoveSession(id)` came after it. -/
def lastWriteRev : List (RegistryOp × RegistryAnswer) → String → Option SessionPtr
  | [], _ => none
  | (.add k s, _) :: older, id => if k = id then some s else lastWriteRev older id
  | (.remove k _ _, .removed (.returned none)) :: older, id =>
    if k = id then none else lastWriteRev older id
  | _ :: older, id => lastWriteRev older id

/-- Last-write-wins reading of a history (oldest call first). -/
def lastWrite (h : List (RegistryOp × RegistryAnswer)) (id : String) : Option SessionPtr :=
  lastWriteRev h.reverse id

/-- What `GetSession` must answer according to the last-write-wins reading. -/
def expectedGet (h : List (RegistryOp × RegistryAnswer)) (id : String) : Except String SessionPtr :=
  match lastWrite h id with
  | some s => .ok s
  | none => .error "session not found"

/-- Connection `c` has had `Close` called on it. -/
def clientClosed (trace : List Effect) (c : Nat) : Bool :=
  trace.any fun e => match e with
    | .clientClose h _ => decide (h = c)
    | _ => false

/-- File-transfer client `h` has had `Close` called on it. -/
def sftpClosed (trace : List Effect) (h : Nat) : Bool :=
  trace.any fun e => match e with
    | .sftpClose k _ => decide (k = h)
    | _ => false

/-- The Remote Connection a session pointer leads to, if any. -/
def clientOf (p : SessionPtr) : Option Nat :=
  match p with
  | some s => s.Client
  | none => none

/-- The File Transfer Client a session pointer leads to, if any. -/
def sftpOf (p : SessionPtr) : Option Nat :=
  match p with
  | some s => (match s.SFTPClient with
    | some sc => sc.client
    | none => none)
  | none => none

/-- A session pointer whose Remote Connection and File Transfer Client are both set and on
neither of which `Close` has been called. -/
def SessionOpen (trace : List Effect) (p : SessionPtr) : Bool :=
  match clientOf p, sftpOf p with
  | some c, some h => !clientClosed trace c && !sftpClosed trace h
  | _, _ => false

/-- The registry invariant of the spec: every id present maps to an open session. -/
def RegistryInv (r : RegistryRun) : Prop :=
  ∀ id p, mapGet r.sm.sessions id = some p → SessionOpen r.trace p = true

/-- Every `AddSession(id, s)` of the sequence is called with a session that is open at the time
of the call (the hypothesis of C8 as stated). -/
def AddsOpenFrom (r : RegistryRun) : List RegistryOp → Prop
  | [] => True
  | op :: rest =>
    (match op with
      | .add _ s => SessionOpen r.trace s = true
      | _ => True) ∧ AddsOpenFrom (r.step op) rest

/-- Session pointer `s` shares neither its connection nor its file-transfer client with a
session registered under an id other than `id`. -/
def FreshFor (sm : SessionManager) (id : String) (s : SessionPtr) : Prop :=
  ∀ k p, k ≠ id → mapGet sm.sessions k = some p →
    clientOf p ≠ clientOf s ∧ sftpOf p ≠ sftpOf s

/-- No two ids of the registry lead to the same connection or the same file-transfer client. -/
def Separated (sm : SessionManager) : Prop :=
  ∀ k1 k2 p1 p2, k1 ≠ k2 → mapGet sm.sessions k1 = some p1 → mapGet sm.sessions k2 = some p2 →
    clientOf p1 ≠ clientOf p2 ∧ sftpOf p1 ≠ sftpOf p2

/-- Every `AddSession(id, s)` of the sequence is called with a session that is open at the time
of the call and whose resources no session registered under another id holds. -/
def AddsFreshFrom (r : RegistryRun) : List RegistryOp → Prop
  | [] => True
  | op :: rest =>
    (match op with
      | .add id s => SessionOpen r.trace s = true ∧ FreshFor r.sm id s
      | _ => True) ∧ AddsFreshFrom (r.step op) rest

/-! ### Sample registry data -/

/-- A session with connection 1 and file-transfer client 11. -/
def sessionA : Session := ⟨"a", some 1, some ⟨some 11⟩⟩

/-- A session with connection 2 and file-transfer client 12. -/
def sessionB : Session := ⟨"b", some 2, some ⟨some 12⟩⟩

/-- A session under its own id that holds the connection and the file-transfer client of
`sessionA`. -/
def sessionShared : Session := ⟨"b", some 1, some ⟨some 11⟩⟩

/-- The registry with `sessionA` under id `a` and `sessionShared` under id `b`. -/
def sharedRegistry : SessionManager :=
  (NewSessionManager.AddSession "a" (some sessionA)).AddSession "b" (some sessionShared)

/-- The registry with `sessionA` under id `a` and `sessionB` under id `b`. -/
def separateRegistry : SessionManager :=
  (NewSessionManager.AddSession "a" (some sessionA)).AddSession "b" (some sessionB)

/-- One session registered under two ids, then removed under the first. -/
def aliasedOps : List RegistryOp :=
  [.add "a" (some sessionA), .add "b" (some sessionA), .remove "a" false false]

/-- Two sessions with their own resources, the first removed again. -/
def freshOps : List RegistryOp :=
  [.add "a" (some sessionA), .add "b" (some sessionB), .remove "a" true false]

/-! ## `internal/ssh/client.go`: `ExecuteCommand` -/

/-- What the connection answers while a command is executed. -/
structure ExecEnv where
  /-- The error returned by `client.NewSession()`: `none` when the command channel was created. -/
  newSession : Nat → Option String
  /-- The outcome of `session.CombinedOutput(command)`: the output captured and the error (a
  non-zero exit status is an error here). -/
  combinedOutput : Nat → String → String × Option String

/-- The function `ssh.ExecuteCommand(client, command)` for a non-nil `client`. -/
def ssh.ExecuteCommand (env : ExecEnv) (client : Nat) (command : String) : String × Option String :=
  match env.newSession client with
  | some err => ("", some ("failed to create session: " ++ err))
  | none =>
    match env.combinedOutput client command with
    | (output, some err) => (output, some ("command failed: " ++ err))
    | (output, none) => (output, none)

/-! ## `internal/api/handlers.go`: `Handler.ExecuteCommand` -/

/-- The Go struct `ExecuteCommandRequest`. -/
structure ExecuteCommandRequest where
  SessionID : String
  Command : String
deriving DecidableEq, Repr

/-- The body of a JSON response. -/
inductive Body where
  /-- The value `gin.H{"error": msg}`. -/
  | error (msg : String)
  /-- The value `ExecuteCommandResponse{Output: output}`. -/
  | output (output : String)
deriving DecidableEq, Repr

/-- What a handler did: `c.JSON(status, body)`, or a panic on a nil pointer. -/
inductive HandlerResult where
  | json (status : Nat) (body : Body)
  | panicked
deriving DecidableEq, Repr

/-- The status code of a response. -/
def HandlerResult.status : HandlerResult → Option Nat
  | .json status _ => some status
  | .panicked => none

/-- The message of the validator for a field of `ExecuteCommandRequest` that fails its
`required` tag. -/
def requiredError (field : String) : String :=
  "Key: \x27ExecuteCommandRequest." ++ field ++ "\x27 Error:Field validation for \x27" ++ field
    ++ "\x27 failed on the \x27required\x27 tag"

/-- The call `c.ShouldBindJSON(&req)`.  `body` is what decoding the request body into the struct
gave: the decoder's error, or the struct.  Both fields carry `binding:"required"`, which rejects
the zero value; the validator reports every failing field, one message per line, in the order
of the fields. -/
def ShouldBindJSON (body : Except String ExecuteCommandRequest) :
    Except String ExecuteCommandRequest :=
  match body with
  | .error e => .error e
  | .ok req =>
    let failures : List String :=
      (if req.SessionID = "" then [requiredError "SessionID"] else [])
        ++ (if req.Command = "" then [requiredError "Command"] else [])
    if failures = [] then .ok req else .error ("\n".intercalate failures)

/-- The handler method `Handler.ExecuteCommand`. -/
def Handler.ExecuteCommand (sm : SessionManager) (env : ExecEnv)
    (body : Except String ExecuteCommandRequest) : HandlerResult :=
  match ShouldBindJSON body with
  | .error e => .json 400 (.error e)
  | .ok req =>
    match sm.GetSession req.SessionID with
    | .error e => .json 404 (.error e)
    | .ok none => .panicked
    | .ok (some session) =>
      match session.Client with
      | none => .panicked
      | some client =>
        match ssh.ExecuteCommand env client req.Command with
        | (output, some _) => .json 200 (.output output)
        | (output, none) => .json 200 (.output output)

/-- A transport-level failure in the sense of the spec: the session id is not in the registry, or
creating the command channel on the session's connection failed. -/
def TransportFailure (sm : SessionManager) (env : ExecEnv) (req : ExecuteCommandRequest) : Prop :=
  mapGet sm.sessions req.SessionID = none ∨
    ∃ s c, mapGet sm.sessions req.SessionID = some (some s) ∧ s.Client = some c ∧
      env.newSession c ≠ none

/-- A connection on which no command channel can be created. -/
def brokenEnv : ExecEnv := ⟨fun _ => some "EOF", fun _ _ => ("", none)⟩

/-- A connection whose commands exit with status 1 after printing `oops`. -/
def failingEnv : ExecEnv :=
  ⟨fun _ => none, fun _ _ => ("oops", some "Process exited with status 1")⟩

/-! ## `encoding/json` as the stdin pump uses it

The pump calls `json.Unmarshal(message, &resizeMsg)` of the Go standard library.  What follows
models that call for the target struct of the pump: the syntax check is the byte-at-a-time
scanner of the library (its step functions and its stack of parse states), and the decoding
pass is a collector riding on the scanner that keeps the members of the top-level object. -/

/-- The step function the scanner is in (the `state...` functions of the library). -/
inductive Mode where
  | beginValueOrEmpty | beginValue | beginStringOrEmpty | beginString | endValue | endTop
  | inString | inStringEsc | inStringEscU | inStringEscU1 | inStringEscU12 | inStringEscU123
  | neg | num1 | num0 | dot | dot0 | e | eSign | e0
  | t | tr | tru | f | fa | fal | fals | n | nu | nul
  | error
deriving DecidableEq, Repr

/-- An entry of the scanner's stack: what the enclosing composite value is waiting for. -/
inductive ParseState where
  | objectKey | objectValue | arrayValue
deriving DecidableEq, Repr

/-- The scanner: `parseState` has the innermost entry first. -/
structure Scanner where
  step : Mode
  parseState : List ParseState
  endTop : Bool
  err : Bool
deriving DecidableEq, Repr

/-- The nesting limit of the scanner. -/
def maxNestingDepth : Nat := 10000

def isSpace (c : Nat) : Bool := c = 32 || c = 9 || c = 13 || c = 10

def isDigit (c : Nat) : Bool := decide (48 ≤ c) && decide (c ≤ 57)

def isHex (c : Nat) : Bool :=
  isDigit c || (decide (97 ≤ c) && decide (c ≤ 102)) || (decide (65 ≤ c) && decide (c ≤ 70))

/-- The scanner after `reset`. -/
def Scanner.init : Scanner := ⟨.beginValue, [], false, false⟩

/-- The method `scanner.error`: record the syntax error. -/
def Scanner.error (s : Scanner) : Scanner := { s with step := .error, err := true }

def Scanner.pushParseState (s : Scanner) (next : Mode) (p : ParseState) : Scanner :=
  if s.parseState.length + 1 ≤ maxNestingDepth then
    { s with step := next, parseState := p :: s.parseState }
  else { s with parseState := p :: s.parseState, step := .error, err := true }

def Scanner.popParseState (s : Scanner) : Scanner :=
  match s.parseState.tail with
  | [] => { s with parseState := [], step := .endTop, endTop := true }
  | ps => { s with parseState := ps, step := .endValue }

def stateEndTop (s : Scanner) (c : Nat) : Scanner :=
  if isSpace c then s else s.error

def stateEndValue (s : Scanner) (c : Nat) : Scanner :=
  match s.parseState with
  | [] => stateEndTop { s with step := .endTop, endTop := true } c
  | ps :: rest =>
    if isSpace c then { s with step := .endValue }
    else
      match ps with
      | .objectKey =>
        if c = 58 then { s with parseState := .objectValue :: rest, step := .beginValue }
        else s.error
      | .objectValue =>
        if c = 44 then { s with parseState := .objectKey :: rest, step := .beginString }
        else if c = 125 then s.popParseState
        else s.error
      | .arrayValue =>
        if c = 44 then { s with step := .beginValue }
        else if c = 93 then s.popParseState
        else s.error

def stateBeginValue (s : Scanner) (c : Nat) : Scanner :=
  if isSpace c then s
  else if c = 123 then s.pushParseState .beginStringOrEmpty .objectKey
  else if c = 91 then s.pushParseState .beginValueOrEmpty .arrayValue
  else if c = 34 then { s with step := .inString }
  else if c = 45 then { s with step := .neg }
  else if c = 48 then { s with step := .num0 }
  else if c = 116 then { s with step := .t }
  else if c = 102 then { s with step := .f }
  else if c = 110 then { s with step := .n }
  else if decide (49 ≤ c) && decide (c ≤ 57) then { s with step := .num1 }
  else s.error

def stateBeginValueOrEmpty (s : Scanner) (c : Nat) : Scanner :=
  if isSpace c then s
  else if c = 93 then stateEndValue s c
  else stateBeginValue s c

def stateBeginString (s : Scanner) (c : Nat) : Scanner :=
  if isSpace c then s
  else if c = 34 then { s with step := .inString }
  else s.error

def stateBeginStringOrEmpty (s : Scanner) (c : Nat) : Scanner :=
  if isSpace c then s
  else if c = 125 then
    stateEndValue { s with parseState := .objectValue :: s.parseState.tail } c
  else stateBeginString s c

def stateInString (s : Scanner) (c : Nat) : Scanner :=
  if c = 34 then { s with step := .endValue }
  else if c = 92 then { s with step := .inStringEsc }
  else if c < 32 then s.error
  else s

def stateInStringEsc (s : Scanner) (c : Nat) : Scanner :=
  if c = 98 || c = 102 || c = 110 || c = 114 || c = 116 || c = 92 || c = 47 || c = 34 then
    { s with step := .inString }
  else if c = 117 then { s with step := .inStringEscU }
  else s.error

/-- The four states after a backslash and `u`: a hexadecimal digit leads to `next`. -/
def stateHex (s : Scanner) (c : Nat) (next : Mode) : Scanner :=
  if isHex c then { s with step := next } else s.error

def state0 (s : Scanner) (c : Nat) : Scanner :=
  if c = 46 then { s with step := .dot }
  else if c = 101 || c = 69 then { s with step := .e }
  else stateEndValue s c

def state1 (s : Scanner) (c : Nat) : Scanner :=
  if isDigit c then { s with step := .num1 } else state0 s c

def stateNeg (s : Scanner) (c : Nat) : Scanner :=
  if c = 48 then { s with step := .num0 }
  else if decide (49 ≤ c) && decide (c ≤ 57) then { s with step := .num1 }
  else s.error

def stateDot (s : Scanner) (c : Nat) : Scanner :=
  if isDigit c then { s with step := .dot0 } else s.error

def stateDot0 (s : Scanner) (c : Nat) : Scanner :=
  if isDigit c then s
  else if c = 101 || c = 69 then { s with step := .e }
  else stateEndValue s c

def stateESign (s : Scanner) (c : Nat) : Scanner :=
  if isDigit c then { s with step := .e0 } else s.error

def stateE (s : Scanner) (c : Nat) : Scanner :=
  if c = 43 || c = 45 then { s with step := .eSign } else stateESign s c

def stateE0 (s : Scanner) (c : Nat) : Scanner :=
  if isDigit c then s else stateEndValue s c

/-- The states inside `true`, `false` and `null`: byte `want` leads to `next`. -/
def stateLetter (s : Scanner) (c want : Nat) (next : Mode) : Scanner :=
  if c = want then { s with step := next } else s.error

/-- One call `s.step(s, c)`. -/
def Scanner.next (s : Scanner) (c : Nat) : Scanner :=
  match s.step with
  | .beginValueOrEmpty => stateBeginValueOrEmpty s c
  | .beginValue => stateBeginValue s c
  | .beginStringOrEmpty => stateBeginStringOrEmpty s c
  | .beginString => stateBeginString s c
  | .endValue => stateEndValue s c
  | .endTop => stateEndTop s c
  | .inString => stateInString s c
  | .inStringEsc => stateInStringEsc s c
  | .inStringEscU => stateHex s c .inStringEscU1
  | .inStringEscU1 => stateHex s c .inStringEscU12
  | .inStringEscU12 => stateHex s c .inStringEscU123
  | .inStringEscU123 => stateHex s c .inString
  | .neg => stateNeg s c
  | .num1 => state1 s c
  | .num0 => state0 s c
  | .dot => stateDot s c
  | .dot0 => stateDot0 s c
  | .e => stateE s c
  | .eSign => stateESign s c
  | .e0 => stateE0 s c
  | .t => stateLetter s c 114 .tr
  | .tr => stateLetter s c 117 .tru
  | .tru => stateLetter s c 101 .endValue
  | .f => stateLetter s c 97 .fa
  | .fa => stateLetter s c 108 .fal
  | .fal => stateLetter s c 115 .fals
  | .fals => stateLetter s c 101 .endValue
  | .n => stateLetter s c 117 .nu
  | .nu => stateLetter s c 108 .nul
  | .nul => stateLetter s c 108 .endValue
  | .error => s

/-- The method `scanner.eof`: whether the input ended on a complete top-level value. -/
def Scanner.eof (s : Scanner) : Bool :=
  if s.err then false
  else if s.endTop then true
  else (s.next 32).endTop

/-- The function `checkValid`: the syntax check that `Unmarshal` runs first. -/
def checkValid (data : Bytes) : Bool := (data.foldl Scanner.next Scanner.init).eof

/-- A member value of the top-level object as far as decoding into the pump's struct looks at
it: its kind, with the literal text of a number and the text between the quotes of a string. -/
inductive Shallow where
  | null
  | bool
  | number (lit : Bytes)
  | string (raw : Bytes)
  | array
  | object
deriving DecidableEq, Repr

/-- The kind of the top-level value. -/
inductive TopKind where
  | object | null | other
deriving DecidableEq, Repr

def Mode.inStr (m : Mode) : Bool :=
  m = .inString || m = .inStringEsc || m = .inStringEscU || m = .inStringEscU1
    || m = .inStringEscU12 || m = .inStringEscU123

def Mode.inNum (m : Mode) : Bool :=
  m = .neg || m = .num1 || m = .num0 || m = .dot || m = .dot0 || m = .e || m = .eSign || m = .e0

def Mode.inLit (m : Mode) : Bool :=
  m = .t || m = .tr || m = .tru || m = .f || m = .fa || m = .fal || m = .fals
    || m = .n || m = .nu || m = .nul

/-- The scanner together with what the decoding pass keeps: the kind of the top-level value, the
key and the value being read directly inside the top-level object, and the members read. -/
structure Decoder where
  scan : Scanner
  top : Option TopKind
  key : Bytes
  kind : Shallow
  lit : Bytes
  members : List (Bytes × Shallow)
deriving DecidableEq, Repr

def Decoder.init : Decoder := ⟨Scanner.init, none, [], .null, [], []⟩

/-- The value that starts with byte `c`. -/
def kindOfFirst (c : Nat) : Shallow :=
  if c = 34 then .string []
  else if c = 123 then .object
  else if c = 91 then .array
  else if c = 116 || c = 102 then .bool
  else if c = 110 then .null
  else .number []

/-- The member value that has just been completed. -/
def Decoder.emit (d : Decoder) (s : Scanner) (v : Shallow) : Decoder :=
  { d with scan := s, members := d.members ++ [(d.key, v)] }

/-- One byte of input: the scanner steps, and the decoding pass follows it. -/
def Decoder.feed (d : Decoder) (c : Nat) : Decoder :=
  let s := d.scan
  let s1 := s.next c
  match s.parseState with
  | [] =>
    if s.step = .beginValue && !isSpace c then
      { d with scan := s1,
               top := some (if c = 123 then .object else if c = 110 then .null else .other) }
    else { d with scan := s1 }
  | [.objectKey] =>
    if s.step = .beginStringOrEmpty || s.step = .beginString then
      { d with scan := s1, key := [] }
    else if s.step.inStr && s1.step.inStr then { d with scan := s1, key := d.key ++ [c] }
    else { d with scan := s1 }
  | [.objectValue] =>
    if s.step = .beginValue then
      if isSpace c then { d with scan := s1 }
      else { d with scan := s1, kind := kindOfFirst c, lit := if s1.step.inNum then [c] else [] }
    else if s.step.inStr then
      if s1.step.inStr then { d with scan := s1, lit := d.lit ++ [c] }
      else d.emit s1 (.string d.lit)
    else if s.step.inNum then
      if s1.step.inNum then { d with scan := s1, lit := d.lit ++ [c] }
      else d.emit s1 (.number d.lit)
    else if s.step.inLit then
      if s1.step = .endValue then d.emit s1 d.kind else { d with scan := s1 }
    else { d with scan := s1 }
  | [p, _] =>
    if s1.parseState.length = 1 then
      d.emit s1 (if p = .arrayValue then .array else .object)
    else { d with scan := s1 }
  | _ => { d with scan := s1 }

/-! ### Strings -/

/-- The value of a hexadecimal digit. -/
def hexVal (c : Nat) : Nat :=
  if isDigit c then c - 48
  else if decide (97 ≤ c) && decide (c ≤ 102) then c - 97 + 10
  else c - 65 + 10

/-- The function `getu4`: the code unit of a `\uXXXX` escape at the head of the input. -/
def getu4 (s : Bytes) : Option Nat :=
  match s with
  | b :: u :: h1 :: h2 :: h3 :: h4 :: _ =>
    if b = 92 && u = 117 && isHex h1 && isHex h2 && isHex h3 && isHex h4 then
      some (((hexVal h1 * 16 + hexVal h2) * 16 + hexVal h3) * 16 + hexVal h4)
    else none
  | _ => none

/-- The function `utf8.EncodeRune` for a code point that is not a surrogate. -/
def encodeRune (r : Nat) : Bytes :=
  if r < 128 then [r]
  else if r < 2048 then [192 + r / 64, 128 + r % 64]
  else if r < 65536 then [224 + r / 4096, 128 + r / 64 % 64, 128 + r % 64]
  else [240 + r / 262144, 128 + r / 4096 % 64, 128 + r / 64 % 64, 128 + r % 64]

/-- The bytes of U+FFFD, the replacement character. -/
def replacementChar : Bytes := [239, 191, 189]

def isCont (c : Nat) : Bool := decide (128 ≤ c) && decide (c ≤ 191)

/-- The width of the well-formed UTF-8 sequence at the head of the input, `0` when the head is
not one (`utf8.DecodeRune` then answers the replacement character with width 1). -/
def utf8Width (s : Bytes) : Nat :=
  match s with
  | [] => 0
  | b0 :: rest =>
    if b0 < 128 then 1
    else if decide (194 ≤ b0) && decide (b0 ≤ 223) then
      match rest with
      | b1 :: _ => if isCont b1 then 2 else 0
      | _ => 0
    else if decide (224 ≤ b0) && decide (b0 ≤ 239) then
      match rest with
      | b1 :: b2 :: _ =>
        let lo := if b0 = 224 then 160 else 128
        let hi := if b0 = 237 then 159 else 191
        if decide (lo ≤ b1) && decide (b1 ≤ hi) && isCont b2 then 3 else 0
      | _ => 0
    else if decide (240 ≤ b0) && decide (b0 ≤ 244) then
      match rest with
      | b1 :: b2 :: b3 :: _ =>
        let lo := if b0 = 240 then 144 else 128
        let hi := if b0 = 244 then 143 else 191
        if decide (lo ≤ b1) && decide (b1 ≤ hi) && isCont b2 && isCont b3 then 4 else 0
      | _ => 0
    else 0

/-- The function `unquoteBytes` on the text between the quotes, with `fuel` at least the length
of the text: escapes are resolved and ill-formed UTF-8 is replaced by U+FFFD; `none` on text
that is not the inside of a string literal. -/
def unquoteAux : Nat → Bytes → Option Bytes
  | 0, s => if s = [] then some [] else none
  | fuel + 1, s =>
    match s with
    | [] => some []
    | c :: rest =>
      if c = 92 then
        match rest with
        | [] => none
        | x :: rest1 =>
          if x = 34 || x = 92 || x = 47 || x = 39 then (unquoteAux fuel rest1).map (x :: ·)
          else if x = 98 then (unquoteAux fuel rest1).map (8 :: ·)
          else if x = 102 then (unquoteAux fuel rest1).map (12 :: ·)
          else if x = 110 then (unquoteAux fuel rest1).map (10 :: ·)
          else if x = 114 then (unquoteAux fuel rest1).map (13 :: ·)
          else if x = 116 then (unquoteAux fuel rest1).map (9 :: ·)
          else if x = 117 then
            match getu4 s with
            | none => none
            | some rr =>
              if decide (55296 ≤ rr) && decide (rr < 57344) then
                match getu4 (s.drop 6) with
                | some rr1 =>
                  if decide (rr < 56320) && decide (56320 ≤ rr1) && decide (rr1 < 57344) then
                    (unquoteAux fuel (s.drop 12)).map
                      (encodeRune ((rr - 55296) * 1024 + (rr1 - 56320) + 65536) ++ ·)
                  else (unquoteAux fuel (s.drop 6)).map (replacementChar ++ ·)
                | none => (unquoteAux fuel (s.drop 6)).map (replacementChar ++ ·)
              else (unquoteAux fuel (s.drop 6)).map (encodeRune rr ++ ·)
          else none
      else if c = 34 || c < 32 then none
      else if c < 128 then (unquoteAux fuel rest).map (c :: ·)
      else
        match utf8Width s with
        | 0 => (unquoteAux fuel rest).map (replacementChar ++ ·)
        | w + 1 => (unquoteAux fuel (s.drop (w + 1))).map (s.take (w + 1) ++ ·)

def unquoteBytes (raw : Bytes) : Option Bytes := unquoteAux raw.length raw

/-- Case folding of an object key as far as it decides equality with an ASCII field name:
ASCII letters go to upper case, U+017F (long s) to `S` and U+212A (Kelvin sign) to `K`, the two
code points outside ASCII whose fold set contains an ASCII letter. -/
def foldName : Bytes → Bytes
  | [] => []
  | 197 :: 191 :: rest => 83 :: foldName rest
  | 226 :: 132 :: 170 :: rest => 75 :: foldName rest
  | c :: rest => (if decide (97 ≤ c) && decide (c ≤ 122) then c - 32 else c) :: foldName rest

/-! ### Decoding into the struct of the pump -/

/-- The anonymous struct `resizeMsg` of the stdin pump; `Type_` is the field `Type`, a Go string. -/
structure ResizeMsg where
  Type_ : Bytes
  Cols : Int
  Rows : Int
deriving DecidableEq, Repr

/-- The fields of `resizeMsg`, named by their `json` tags. -/
inductive Field where
  | type | cols | rows
deriving DecidableEq, Repr

def Field.name : Field → Bytes
  | .type => ascii "type"
  | .cols => ascii "cols"
  | .rows => ascii "rows"

/-- The field an object key selects: the one whose name is the key, else the one whose name
equals the key up to case folding. -/
def fieldFor (key : Bytes) : Option Field :=
  match [Field.type, Field.cols, Field.rows].find? (fun f => decide (f.name = key)) with
  | some f => some f
  | none => [Field.type, Field.cols, Field.rows].find? (fun f => decide (foldName f.name = foldName key))

/-- The number of bits of the Go type `int` (a 64-bit platform). -/
def intSize : Nat := 64

/-- The value `strconv.ParseInt` accumulates over decimal digits. -/
def digitsValue (ds : Bytes) : Nat := ds.foldl (fun acc d => acc * 10 + (d - 48)) 0

/-- The call `strconv.ParseInt(lit, 10, 64)` followed by the overflow check for `int`: the value
of an optional sign and decimal digits, `none` on any other text and on a value out of range. -/
def parseInt (lit : Bytes) : Option Int :=
  let neg : Bool := lit.head? = some 45
  let ds : Bytes := if lit.head? = some 45 || lit.head? = some 43 then lit.tail else lit
  if ds = [] || !ds.all isDigit then none
  else
    let n : Nat := digitsValue ds
    let v : Int := if neg then -(n : Int) else (n : Int)
    if -(2 : Int) ^ (intSize - 1) ≤ v ∧ v < (2 : Int) ^ (intSize - 1) then some v else none

/-- Decoding one member of the top-level object into the struct.  The flag is the saved
`UnmarshalTypeError`: once set it stays, and decoding goes on. -/
def storeField (st : ResizeMsg × Bool) (kv : Bytes × Shallow) : ResizeMsg × Bool :=
  match unquoteBytes kv.1 with
  | none => (st.1, true)
  | some key =>
    match fieldFor key with
    | none => st
    | some .type =>
      match kv.2 with
      | .null => st
      | .string raw =>
        match unquoteBytes raw with
        | some t => ({ st.1 with Type_ := t }, st.2)
        | none => (st.1, true)
      | _ => (st.1, true)
    | some .cols =>
      match kv.2 with
      | .null => st
      | .number lit =>
        match parseInt lit with
        | some n => ({ st.1 with Cols := n }, st.2)
        | none => (st.1, true)
      | _ => (st.1, true)
    | some .rows =>
      match kv.2 with
      | .null => st
      | .number lit =>
        match parseInt lit with
        | some n => ({ st.1 with Rows := n }, st.2)
        | none => (st.1, true)
      | _ => (st.1, true)

/-- The call `json.Unmarshal(data, &resizeMsg)` on the zero struct: `none` when it returns an
error (a syntax error, or a value that does not fit the struct or one of its fields),
otherwise the struct afterwards. -/
def Unmarshal (data : Bytes) : Option ResizeMsg :=
  let d := data.foldl Decoder.feed Decoder.init
  if d.scan.eof then
    match d.top with
    | some .object =>
      let r := d.members.foldl storeField (⟨[], 0, 0⟩, false)
      if r.2 then none else some r.1
    | some .null => some ⟨[], 0, 0⟩
    | _ => none
  else none

/-! ## `internal/api/terminal.go`: the three pumps -/

/-- The test of the stdin pump, `err == nil && resizeMsg.Type == "resize"`: the arguments
`(Rows, Cols)` of the window change when the message is handled as a resize. -/
def resizeOf (message : Bytes) : Option (Int × Int) :=
  match Unmarshal message with
  | some m => if m.Type_ = ascii "resize" then some (m.Rows, m.Cols) else none
  | none => none

/-- Whether a pump has returned, or is blocked in its next read. -/
inductive PumpStatus where
  | returned
  | reading
deriving DecidableEq, Repr

/-- One round of the stdin pump: `ws.ReadMessage()` returned an error, or it returned `data`, and
`writeFails` is what `stdin.Write` answers if the pump calls it. -/
inductive WsRead where
  | error
  | message (data : Bytes) (writeFails : Bool)
deriving DecidableEq, Repr

/-- The goroutine that reads from the WebSocket and writes to the shell's stdin, run on a
script of reads. -/
def stdinPump : List WsRead → List Effect × PumpStatus
  | [] => ([], .reading)
  | .error :: _ => ([Effect.stdinClose], .returned)
  | .message data writeFails :: rest =>
    match resizeOf data with
    | some (rows, cols) =>
      (Effect.windowChange rows cols :: (stdinPump rest).1, (stdinPump rest).2)
    | none =>
      if writeFails then ([Effect.stdinWrite data true], .returned)
      else (Effect.stdinWrite data false :: (stdinPump rest).1, (stdinPump rest).2)

/-- The error of a `Read`. -/
inductive ReadErr where
  | eof
  | other
deriving DecidableEq, Repr

/-- One round of an output pump: `n, err := stdout.Read(buf)` with `data` being `buf[:n]`, and
`sendFails` is what `ws.WriteMessage` answers if the pump calls it. -/
structure ReadResult where
  data : Bytes
  err : Option ReadErr
  sendFails : Bool
deriving DecidableEq, Repr

/-- The size of the read buffer of the output pumps. -/
def bufSize : Nat := 1024

/-- The goroutine that reads the shell's stdout and sends to the WebSocket. -/
def stdoutPump : List ReadResult → List Effect × PumpStatus
  | [] => ([], .reading)
  | r :: rest =>
    if r.err ≠ none then ([Effect.closeDone], .returned)
    else if r.data.length > 0 then
      if r.sendFails then ([Effect.wsWrite r.data true, Effect.closeDone], .returned)
      else (Effect.wsWrite r.data false :: (stdoutPump rest).1, (stdoutPump rest).2)
    else stdoutPump rest

/-- The goroutine that reads the shell's stderr and sends to the WebSocket. -/
def stderrPump : List ReadResult → List Effect × PumpStatus
  | [] => ([], .reading)
  | r :: rest =>
    if r.err ≠ none then ([], .returned)
    else if r.data.length > 0 then
      if r.sendFails then ([Effect.wsWrite r.data true], .returned)
      else (Effect.wsWrite r.data false :: (stderrPump rest).1, (stderrPump rest).2)
    else stderrPump rest

/-- The messages sent on the WebSocket, in order. -/
def sentMessages (trace : List Effect) : List Bytes :=
  trace.filterMap fun e => match e with
    | .wsWrite data false => some data
    | _ => none

/-- The bytes written to the shell's stdin, in order. -/
def stdinBytes (trace : List Effect) : Bytes :=
  (trace.filterMap fun e => match e with
    | .stdinWrite data false => some data
    | _ => none).flatten

/-- The window changes requested, in order, as `(rows, cols)`. -/
def windowChanges (trace : List Effect) : List (Int × Int) :=
  trace.filterMap fun e => match e with
    | .windowChange h w => some (h, w)
    | _ => none

/-- How often `close(done)` is called. -/
def doneCloses (trace : List Effect) : Nat := trace.count Effect.closeDone

/-- The effect the stdin pump issues to the shell channel for one message whose write succeeds: a
window change when the message is handled as a resize, a stdin write of its bytes otherwise. -/
def effectOf (message : Bytes) : Effect :=
  match resizeOf message with
  | some (rows, cols) => Effect.windowChange rows cols
  | none => Effect.stdinWrite message false

/-- A round that makes the stdout pump stop: the read returned an error or end-of-stream, or it
returned bytes and sending them failed. -/
def ReadResult.stops (r : ReadResult) : Bool :=
  r.err ≠ none || (decide (r.data.length > 0) && r.sendFails)

/-- The registry with `sessionA` under id `a`. -/
def registryA : SessionManager := NewSessionManager.AddSession "a" (some sessionA)

/-- A shell that writes `hello\n` and exits, the bytes arriving together with end-of-stream. -/
def helloThenEof : List ReadResult := [⟨ascii "hello\n", some .eof, false⟩]

/-- Three reads (the second empty), then end-of-stream, then a read that never happens. -/
def sampleReads : List ReadResult :=
  [⟨ascii "he", none, false⟩, ⟨[], none, false⟩, ⟨ascii "llo\n", none, false⟩,
   ⟨[], some .eof, false⟩, ⟨ascii "late", none, false⟩]

/-! ### The resize control frame -/

/-- The decimal digits of `n` in front of `acc`, most significant first; `fuel` above `n` is
enough. -/
def decimalAux : Nat → Nat → Bytes → Bytes
  | 0, _, acc => acc
  | fuel + 1, n, acc =>
    if n < 10 then (48 + n) :: acc else decimalAux fuel (n / 10) ((48 + n % 10) :: acc)

/-- The decimal text of a natural number. -/
def decimal (n : Nat) : Bytes := decimalAux (n + 1) n []

/-- The decimal text of an integer, as a JSON serialiser writes it. -/
def intText (z : Int) : Bytes :=
  if z < 0 then 45 :: decimal z.natAbs else decimal z.toNat

/-- The control frame `{"type":"resize","cols":N,"rows":M}`. -/
def resizeMessage (cols rows : Int) : Bytes :=
  ascii "\x7b\"type\":\"resize\",\"cols\":" ++ intText cols ++ ascii ",\"rows\":"
    ++ intText rows ++ ascii "\x7d"

/-- The first byte of the message that is not JSON white space. -/
def firstNonSpace : Bytes → Option Nat
  | [] => none
  | c :: rest => if isSpace c then firstNonSpace rest else some c

/-- The decoder at the start of a member value of the top-level object. -/
def atValue (key : Bytes) (kind : Shallow) (lit : Bytes) (ms : List (Bytes × Shallow)) : Decoder :=
  ⟨⟨.beginValue, [.objectValue], false, false⟩, some .object, key, kind, lit, ms⟩

/-- The decoder inside a number that is a member value of the top-level object. -/
def inNumber (m : Mode) (key lit : Bytes) (ms : List (Bytes × Shallow)) : Decoder :=
  ⟨⟨m, [.objectValue], false, false⟩, some .object, key, .number [], lit, ms⟩

/-- The decoder after the closing brace of the top-level object. -/
def atEnd (key : Bytes) (kind : Shallow) (lit : Bytes) (ms : List (Bytes × Shallow)) : Decoder :=
  ⟨⟨.endTop, [], true, false⟩, some .object, key, kind, lit, ms⟩

/-- The scanner is where it started: before the first byte of the top-level value. -/
def Scanner.fresh (s : Scanner) : Prop := s.step = .beginValue ∧ s.parseState = []

/-- The frame of the spec's example, `cols` 120 and `rows` 40. -/
def resizeFrame : Bytes := ascii "\x7b\"type\":\"resize\",\"cols\":120,\"rows\":40\x7d"

/-- A resize frame whose `cols` is 2^63, one more than the largest `int`. -/
def oversizedFrame : Bytes :=
  ascii "\x7b\"type\":\"resize\",\"cols\":9223372036854775808,\"rows\":40\x7d"

/-- An object that carries only the member `type`. -/
def typeOnlyFrame : Bytes := ascii "\x7b\"type\":\"resize\"\x7d"

/-- Plain text, an object without the member `type`, and an unterminated object. -/
def literalInputs : List Bytes :=
  [ascii "ls -la\n", ascii "\x7b\"cols\":80,\"rows\":24\x7d", ascii "\x7b\"type\":\"resize\""]

/-- The members the decoding pass finds directly inside the top-level value of a message:
the text between the quotes of each key, and the value. -/
def topLevelMembers (data : Bytes) : List (Bytes × Shallow) :=
  (data.foldl Decoder.feed Decoder.init).members

/-- Whether the key with this text between its quotes selects the field `Type` of the struct. -/
def selectsType (rawKey : Bytes) : Bool :=
  match unquoteBytes rawKey with
  | some key => fieldFor key = some .type
  | none => false

/-! ## The registry as a finite map -/

theorem mapGet_mapDelete (m : SessionMap) (k id : String) :
    mapGet (mapDelete m k) id = if k = id then none else mapGet m id := by
  induction m with
  | nil => simp [mapDelete, mapGet]
  | cons kv rest ih =>
    obtain ⟨a, v⟩ := kv
    unfold mapDelete at ih ⊢
    by_cases hak : a = k
    · subst hak
      simp only [List.filter, ne_eq, not_true_eq_false, decide_False]
      rw [ih]
      by_cases h : a = id
      · simp [h]
      · simp [h, mapGet]
    · simp only [List.filter, ne_eq, hak, not_false_eq_true, decide_True, mapGet]
      rw [ih]
      by_cases h : a = id
      · subst h
        have : ¬ k = a := fun e => hak e.symm
        simp [this]
      · simp [h]

theorem mapGet_mapSet (m : SessionMap) (k id : String) (v : SessionPtr) :
    mapGet (mapSet m k v) id = if k = id then some v else mapGet m id := by
  unfold mapSet
  by_cases h : k = id
  · simp [mapGet, h]
  · simp [mapGet, h, mapGet_mapDelete]

theorem removeSession_map (sm : SessionManager) (id : String) (f1 f2 : Bool) :
    (sm.RemoveSession id f1 f2).2.1 =
      if (sm.RemoveSession id f1 f2).1 = .returned none then ⟨mapDelete sm.sessions id⟩ else sm := by
  unfold SessionManager.RemoveSession
  cases hg : mapGet sm.sessions id with
  | none => simp
  | some p =>
    cases p with
    | none => simp
    | some s =>
      cases hs : s.SFTPClient with
      | none => simp [hs]
      | some sc =>
        cases hc : sc.client with
        | none => simp [SFTPClient.Close, hc, hs]
        | some h => simp [SFTPClient.Close, hc, hs]

theorem removeSession_ok_present (sm : SessionManager) (id : String) (f1 f2 : Bool)
    (h : (sm.RemoveSession id f1 f2).1 = .returned none) :
    ∃ s, mapGet sm.sessions id = some (some s) := by
  unfold SessionManager.RemoveSession at h
  cases hg : mapGet sm.sessions id with
  | none => simp [hg] at h
  | some p =>
    cases p with
    | none => simp [hg] at h
    | some s => exact ⟨s, rfl⟩

theorem removeSession_set (sm : SessionManager) (id : String) (s : Session) (c h : Nat)
    (f1 f2 : Bool) (hg : mapGet sm.sessions id = some (some s)) (hc : s.Client = some c)
    (hs : s.SFTPClient = some ⟨some h⟩) :
    sm.RemoveSession id f1 f2 =
      (.returned none, ⟨mapDelete sm.sessions id⟩,
        [Effect.sftpClose h f1, Effect.clientClose c f2, Effect.mapDelete id]) := by
  simp [SessionManager.RemoveSession, hg, hc, hs, SFTPClient.Close]

theorem removeSession_effects_nil (sm : SessionManager) (id : String) (f1 f2 : Bool)
    (h : (sm.RemoveSession id f1 f2).1 ≠ .returned none) :
    (sm.RemoveSession id f1 f2).2.2 = [] := by
  unfold SessionManager.RemoveSession at h ⊢
  cases hg : mapGet sm.sessions id with
  | none => simp
  | some p =>
    cases p with
    | none => simp
    | some s =>
      cases hs : s.SFTPClient with
      | none => simp [hg, hs] at h
      | some sc =>
        cases hc : sc.client with
        | none => simp [SFTPClient.Close, hc, hs]
        | some k => simp [SFTPClient.Close, hg, hc, hs] at h

theorem sessionOpen_iff (t : List Effect) (p : SessionPtr) :
    SessionOpen t p = true ↔
      ∃ c h, clientOf p = some c ∧ sftpOf p = some h ∧
        clientClosed t c = false ∧ sftpClosed t h = false := by
  unfold SessionOpen
  cases hc : clientOf p with
  | none => simp
  | some c =>
    cases hs : sftpOf p with
    | none => simp
    | some h => simp

theorem sftpOf_some (p : SessionPtr) (h : Nat) (hs : sftpOf p = some h) :
    ∃ s, p = some s ∧ s.SFTPClient = some ⟨some h⟩ := by
  cases p with
  | none => simp [sftpOf] at hs
  | some s =>
    refine ⟨s, rfl, ?_⟩
    cases hsc : s.SFTPClient with
    | none => simp [sftpOf, hsc] at hs
    | some sc =>
      obtain ⟨cl⟩ := sc
      simp [sftpOf, hsc] at hs
      simp [hs]

theorem clientOf_some (p : SessionPtr) (c : Nat) (hc : clientOf p = some c) :
    ∃ s, p = some s ∧ s.Client = some c := by
  cases p with
  | none => simp [clientOf] at hc
  | some s => exact ⟨s, rfl, by simpa [clientOf] using hc⟩

theorem clientClosed_append (t u : List Effect) (c : Nat) :
    clientClosed (t ++ u) c = (clientClosed t c || clientClosed u c) := by
  simp [clientClosed, List.any_append]

theorem sftpClosed_append (t u : List Effect) (h : Nat) :
    sftpClosed (t ++ u) h = (sftpClosed t h || sftpClosed u h) := by
  simp [sftpClosed, List.any_append]

theorem step_preserves (r : RegistryRun) (op : RegistryOp)
    (hinv : RegistryInv r) (hsep : Separated r.sm)
    (hop : match op with
      | .add id s => SessionOpen r.trace s = true ∧ FreshFor r.sm id s
      | _ => True) :
    RegistryInv (r.step op) ∧ Separated (r.step op).sm := by
  cases op with
  | get k => exact ⟨hinv, hsep⟩
  | add k s =>
    obtain ⟨hopen, hfresh⟩ := hop
    constructor
    · intro id p hg
      simp only [RegistryRun.step, SessionManager.AddSession, mapGet_mapSet] at hg ⊢
      by_cases hk : k = id
      · simp [hk] at hg
        subst hg
        exact hopen
      · simp [hk] at hg
        exact hinv id p hg
    · intro k1 k2 p1 p2 hne h1 h2
      simp only [RegistryRun.step, SessionManager.AddSession, mapGet_mapSet] at h1 h2
      by_cases e1 : k = k1
      · have e2 : ¬ k = k2 := fun e => hne (e1.symm.trans e)
        simp [e1] at h1
        rw [if_neg e2] at h2
        subst h1
        have := hfresh k2 p2 (fun e => e2 e.symm) h2
        exact ⟨fun e => this.1 e.symm, fun e => this.2 e.symm⟩
      · rw [if_neg e1] at h1
        by_cases e2 : k = k2
        · simp [e2] at h2
          subst h2
          exact hfresh k1 p1 (fun e => e1 e.symm) h1
        · rw [if_neg e2] at h2
          exact hsep k1 k2 p1 p2 hne h1 h2
  | remove k f1 f2 =>
    by_cases hres : (r.sm.RemoveSession k f1 f2).1 = .returned none
    · obtain ⟨s, hs⟩ := removeSession_ok_present r.sm k f1 f2 hres
      have hso := hinv k (some s) hs
      obtain ⟨c, h, hc, hh, hcc, hhc⟩ := (sessionOpen_iff _ _).1 hso
      obtain ⟨s1, e1, hc1⟩ := clientOf_some _ _ hc
      obtain ⟨s2, e2, hh2⟩ := sftpOf_some _ _ hh
      cases e1
      cases e2
      have hrem := removeSession_set r.sm k s c h f1 f2 hs hc1 hh2
      constructor
      · intro id p hg
        simp only [RegistryRun.step, hrem, mapGet_mapDelete] at hg ⊢
        by_cases hk : k = id
        · simp [hk] at hg
        · rw [if_neg hk] at hg
          have hp := hinv id p hg
          obtain ⟨c2, h2, hc2, hh2, hcc2, hhc2⟩ := (sessionOpen_iff _ _).1 hp
          have hd := hsep id k p (some s) (fun e => hk e.symm) hg hs
          rw [sessionOpen_iff]
          refine ⟨c2, h2, hc2, hh2, ?_, ?_⟩
          · rw [clientClosed_append, hcc2]
            have : c ≠ c2 := by
              intro e; apply hd.1; rw [hc2, hc, e]
            simp [clientClosed, this]
          · rw [sftpClosed_append, hhc2]
            have : h ≠ h2 := by
              intro e; apply hd.2; rw [hh2, hh, e]
            simp [sftpClosed, this]
      · intro k1 k2 p1 p2 hne h1 h2
        simp only [RegistryRun.step, hrem, mapGet_mapDelete] at h1 h2
        by_cases e1 : k = k1
        · simp [e1] at h1
        · by_cases e2 : k = k2
          · simp [e2] at h2
          · rw [if_neg e1] at h1
            rw [if_neg e2] at h2
            exact hsep k1 k2 p1 p2 hne h1 h2
    · have hm := removeSession_map r.sm k f1 f2
      rw [if_neg hres] at hm
      have he := removeSession_effects_nil r.sm k f1 f2 hres
      constructor
      · intro id p hg
        simp only [RegistryRun.step, hm, he, List.append_nil] at hg ⊢
        exact hinv id p hg
      · intro k1 k2 p1 p2 hne h1 h2
        simp only [RegistryRun.step, hm] at h1 h2
        exact hsep k1 k2 p1 p2 hne h1 h2

theorem run_preserves (ops : List RegistryOp) :
    ∀ r : RegistryRun, RegistryInv r → Separated r.sm → AddsFreshFrom r ops →
      RegistryInv (ops.foldl RegistryRun.step r) := by
  induction ops with
  | nil => intro r h _ _; exact h
  | cons op rest ih =>
    intro r hinv hsep hadds
    obtain ⟨hop, hrest⟩ := hadds
    obtain ⟨h1, h2⟩ := step_preserves r op hinv hsep hop
    exact ih _ h1 h2 hrest

/-! ## Histories -/

theorem runRegistry_snoc (ops : List RegistryOp) (op : RegistryOp) :
    runRegistry (ops ++ [op]) = (runRegistry ops).step op := by
  simp [runRegistry, List.foldl_append]

theorem lastWrite_snoc_add (h : List (RegistryOp × RegistryAnswer)) (k id : String)
    (s : SessionPtr) (a : RegistryAnswer) :
    lastWrite (h ++ [(.add k s, a)]) id = if k = id then some s else lastWrite h id := by
  simp [lastWrite, lastWriteRev]

theorem lastWrite_snoc_get (h : List (RegistryOp × RegistryAnswer)) (k id : String)
    (a : RegistryAnswer) :
    lastWrite (h ++ [(.get k, a)]) id = lastWrite h id := by
  simp [lastWrite, lastWriteRev]

theorem lastWrite_snoc_remove (h : List (RegistryOp × RegistryAnswer)) (k id : String)
    (f1 f2 : Bool) (res : CallResult) :
    lastWrite (h ++ [(.remove k f1 f2, .removed res)]) id =
      if res = .returned none ∧ k = id then none else lastWrite h id := by
  cases res with
  | panicked => simp [lastWrite, lastWriteRev]
  | returned e =>
    cases e with
    | none =>
      by_cases hk : k = id
      · simp [lastWrite, lastWriteRev, hk]
      · simp [lastWrite, lastWriteRev, hk]
    | some m => simp [lastWrite, lastWriteRev]

theorem mapGet_eq_lastWrite (ops : List RegistryOp) (id : String) :
    mapGet (runRegistry ops).sm.sessions id = lastWrite (runRegistry ops).history id := by
  induction ops using List.reverseRecOn with
  | nil => rfl
  | append_singleton ops op ih =>
    rw [runRegistry_snoc]
    cases op with
    | add k s =>
      simp only [RegistryRun.step, SessionManager.AddSession, mapGet_mapSet, lastWrite_snoc_add, ih]
    | get k =>
      simp only [RegistryRun.step, lastWrite_snoc_get, ih]
    | remove k f1 f2 =>
      simp only [RegistryRun.step, lastWrite_snoc_remove, removeSession_map]
      by_cases hres : ((runRegistry ops).sm.RemoveSession k f1 f2).1 = .returned none
      · simp only [hres, if_true, true_and, mapGet_mapDelete, ih]
      · simp only [hres, if_false, false_and, ih]

theorem history_ops (ops : List RegistryOp) :
    (runRegistry ops).history.map Prod.fst = ops := by
  induction ops using List.reverseRecOn with
  | nil => rfl
  | append_singleton ops op ih =>
    rw [runRegistry_snoc]
    cases op <;> simp [RegistryRun.step, ih]

theorem getSession_eq (sm : SessionManager) (id : String) :
    sm.GetSession id =
      match mapGet sm.sessions id with
      | none => .error "session not found"
      | some session => .ok session := rfl

/-! ## Claims on the session registry -/

/-- C1: the registry is a last-write-wins finite map.  After any sequence of `AddSession`,
`RemoveSession` and `GetSession` calls from `NewSessionManager()`, `GetSession(id)` answers what the
history of the answered calls prescribes: the session of the most recent `AddSession(id, s)` when no
successful `RemoveSession(id)` came after it, the error `session not found` otherwise.  A further
`GetSession` changes nothing, a further `AddSession(k, s)` changes the answer only for `k = id`, and
a further `RemoveSession(k)` only for `k = id` and when it succeeds. -/
theorem registry_last_write_wins (ops : List RegistryOp) (id : String) :
    (runRegistry ops).sm.GetSession id = expectedGet (runRegistry ops).history id
    ∧ (runRegistry ops).history.map Prod.fst = ops
    ∧ (∀ k, (runRegistry (ops ++ [.get k])).sm = (runRegistry ops).sm
        ∧ (runRegistry (ops ++ [.get k])).trace = (runRegistry ops).trace)
    ∧ (∀ k s, (runRegistry (ops ++ [.add k s])).sm.GetSession id =
        if k = id then .ok s else (runRegistry ops).sm.GetSession id)
    ∧ (∀ k f1 f2, (runRegistry (ops ++ [.remove k f1 f2])).sm.GetSession id =
        if k = id ∧ ((runRegistry ops).sm.RemoveSession k f1 f2).1 = .returned none
        then .error "session not found" else (runRegistry ops).sm.GetSession id) := by
  refine ⟨?_, history_ops ops, ?_, ?_, ?_⟩
  · rw [getSession_eq, mapGet_eq_lastWrite]
    unfold expectedGet
    cases lastWrite (runRegistry ops).history id <;> rfl
  · intro k
    rw [runRegistry_snoc]
    exact ⟨rfl, rfl⟩
  · intro k s
    rw [runRegistry_snoc]
    simp only [RegistryRun.step, SessionManager.AddSession, getSession_eq, mapGet_mapSet]
    by_cases hk : k = id
    · simp [hk]
    · simp [hk]
  · intro k f1 f2
    rw [runRegistry_snoc]
    simp only [RegistryRun.step, getSession_eq, removeSession_map]
    by_cases hres : ((runRegistry ops).sm.RemoveSession k f1 f2).1 = .returned none
    · rw [if_pos hres]
      by_cases hk : k = id
      · subst hk
        simp [hres, mapGet_mapDelete]
      · simp [hk, mapGet_mapDelete]
    · simp [hres]

/-- C2: `RemoveSession` on an id that is not in the registry returns the error
`session not found`, leaves the map as it was and issues no effect (no `Close` on any
file-transfer client or connection, no delete). -/
theorem removeSession_absent (sm : SessionManager) (id : String) (f1 f2 : Bool)
    (h : mapGet sm.sessions id = none) :
    sm.RemoveSession id f1 f2 = (.returned (some "session not found"), sm, []) := by
  simp [SessionManager.RemoveSession, h]

theorem sessionOpen_append_of_fresh (t : List Effect) (p : SessionPtr) (c h : Nat)
    (f1 f2 : Bool) (id : String) (hc : clientOf p ≠ some c) (hh : sftpOf p ≠ some h) :
    SessionOpen (t ++ [Effect.sftpClose h f1, Effect.clientClose c f2, Effect.mapDelete id]) p =
      SessionOpen t p := by
  unfold SessionOpen
  cases hcp : clientOf p with
  | none => rfl
  | some c2 =>
    cases hsp : sftpOf p with
    | none => rfl
    | some h2 =>
      have e1 : c ≠ c2 := by
        intro e; apply hc; rw [hcp, e]
      have e2 : h ≠ h2 := by
        intro e; apply hh; rw [hsp, e]
      simp [clientClosed_append, sftpClosed_append, clientClosed, sftpClosed, e1, e2]

/-- C3 (amended): `RemoveSession` on an id whose session has both its file-transfer client `h` and
its connection `c` set, and shares neither with a session registered under another id, returns
the nil error whatever the two `Close` calls answered, and issues exactly: close of `h`, then
close of `c`, then the delete of `id`; afterwards `id` is absent, every other id maps to what it
mapped to before, and every session registered under another id is open exactly if it was open
before. -/
theorem removeSession_present (sm : SessionManager) (id : String) (s : Session) (c h : Nat)
    (f1 f2 : Bool) (hg : mapGet sm.sessions id = some (some s)) (hc : s.Client = some c)
    (hs : s.SFTPClient = some ⟨some h⟩) (hfresh : FreshFor sm id (some s)) :
    (sm.RemoveSession id f1 f2).1 = .returned none
    ∧ (sm.RemoveSession id f1 f2).2.2 =
        [Effect.sftpClose h f1, Effect.clientClose c f2, Effect.mapDelete id]
    ∧ (sm.RemoveSession id f1 f2).2.1.GetSession id = .error "session not found"
    ∧ (∀ k, k ≠ id → mapGet (sm.RemoveSession id f1 f2).2.1.sessions k = mapGet sm.sessions k)
    ∧ (∀ t k p, k ≠ id → mapGet sm.sessions k = some p →
        SessionOpen (t ++ (sm.RemoveSession id f1 f2).2.2) p = SessionOpen t p) := by
  rw [removeSession_set sm id s c h f1 f2 hg hc hs]
  refine ⟨rfl, rfl, ?_, ?_, ?_⟩
  · simp [getSession_eq, mapGet_mapDelete]
  · intro k hk
    have : ¬ id = k := fun e => hk e.symm
    simp [mapGet_mapDelete, this]
  · intro t k p hk hp
    obtain ⟨h1, h2⟩ := hfresh k p hk hp
    apply sessionOpen_append_of_fresh
    · simpa [clientOf, hc] using h1
    · simpa [sftpOf, hs] using h2

/-- C8 (amended): from the empty registry, under `AddSession(id, s)` calls whose session is open
at the time of the call and shares neither connection nor file-transfer client with a session
registered under another id, and under `RemoveSession` (and `GetSession`) calls, every id present
maps to a session whose connection and file-transfer client are both still open. -/
theorem registry_invariant_fresh (ops : List RegistryOp)
    (h : AddsFreshFrom RegistryRun.init ops) : RegistryInv (runRegistry ops) := by
  apply run_preserves ops RegistryRun.init _ _ h
  · intro id p hg
    simp [RegistryRun.init, NewSessionManager, mapGet] at hg
  · intro k1 k2 p1 p2 _ h1
    simp [RegistryRun.init, NewSessionManager, mapGet] at h1

theorem removeSession_absent_witness :
    mapGet (NewSessionManager.AddSession "a" (some sessionA)).sessions "b" = none
    ∧ (NewSessionManager.AddSession "a" (some sessionA)).RemoveSession "b" false false =
        (.returned (some "session not found"), NewSessionManager.AddSession "a" (some sessionA), []) :=
  ⟨by decide, removeSession_absent _ "b" false false (by decide)⟩

theorem freshFor_separateRegistry : FreshFor separateRegistry "a" (some sessionA) := by
  intro k p hk hg
  simp only [separateRegistry, NewSessionManager, SessionManager.AddSession, mapGet_mapSet] at hg
  by_cases hb : "b" = k
  · simp [hb] at hg
    subst hg
    decide
  · have ha : ¬ "a" = k := fun e => hk e.symm
    simp [hb, ha, mapGet] at hg

theorem removeSession_present_witness :
    mapGet separateRegistry.sessions "a" = some (some sessionA)
    ∧ FreshFor separateRegistry "a" (some sessionA)
    ∧ (separateRegistry.RemoveSession "a" true true).1 = .returned none
    ∧ (separateRegistry.RemoveSession "a" true true).2.2 =
        [Effect.sftpClose 11 true, Effect.clientClose 1 true, Effect.mapDelete "a"]
    ∧ (separateRegistry.RemoveSession "a" true true).2.1.GetSession "a" =
        .error "session not found"
    ∧ (∀ k, k ≠ "a" →
        mapGet (separateRegistry.RemoveSession "a" true true).2.1.sessions k =
        mapGet separateRegistry.sessions k)
    ∧ (∀ t k p, k ≠ "a" → mapGet separateRegistry.sessions k = some p →
        SessionOpen (t ++ (separateRegistry.RemoveSession "a" true true).2.2) p =
          SessionOpen t p) :=
  ⟨by decide, freshFor_separateRegistry,
    removeSession_present separateRegistry "a" sessionA 1 11 true true (by decide) rfl rfl
      freshFor_separateRegistry⟩

/-- C3 as stated fails: ids `a` and `b` are registered with sessions that hold the same
connection and the same file-transfer client; `RemoveSession` of `a` succeeds with the three
effects in order, and the session that stays registered under `b` is closed by them. -/
theorem removeSession_shared_counterexample :
    mapGet sharedRegistry.sessions "a" = some (some sessionA)
    ∧ sessionA.Client = some 1 ∧ sessionA.SFTPClient = some ⟨some 11⟩
    ∧ (sharedRegistry.RemoveSession "a" false false).1 = .returned none
    ∧ (sharedRegistry.RemoveSession "a" false false).2.2 =
        [Effect.sftpClose 11 false, Effect.clientClose 1 false, Effect.mapDelete "a"]
    ∧ mapGet (sharedRegistry.RemoveSession "a" false false).2.1.sessions "b" =
        some (some sessionShared)
    ∧ SessionOpen [] (some sessionShared) = true
    ∧ SessionOpen ([] ++ (sharedRegistry.RemoveSession "a" false false).2.2)
        (some sessionShared) = false := by
  decide

/-- C8 as stated fails: the same open session is added under ids `a` and `b`; removing `a`
closes its connection and file-transfer client while `b` still maps to it. -/
theorem registry_invariant_aliasing_counterexample :
    AddsOpenFrom RegistryRun.init aliasedOps ∧ ¬ RegistryInv (runRegistry aliasedOps) := by
  refine ⟨⟨by decide, by decide, trivial, trivial⟩, ?_⟩
  intro h
  have hb := h "b" (some sessionA) (by decide)
  revert hb
  decide

theorem registry_invariant_fresh_witness :
    AddsFreshFrom RegistryRun.init freshOps ∧ RegistryInv (runRegistry freshOps) := by
  have hfresh : AddsFreshFrom RegistryRun.init freshOps := by
    refine ⟨⟨by decide, ?_⟩, ⟨by decide, ?_⟩, trivial, trivial⟩
    · intro k p _ hg
      simp [RegistryRun.init, NewSessionManager, mapGet] at hg
    · intro k p hk hg
      simp only [RegistryRun.step, RegistryRun.init, NewSessionManager, SessionManager.AddSession,
        mapGet_mapSet] at hg
      by_cases ha : "a" = k
      · simp [ha] at hg
        subst hg
        decide
      · simp [ha, mapGet] at hg
  exact ⟨hfresh, registry_invariant_fresh freshOps hfresh⟩

/-! ## Claims on the execute-command handler -/

/-- C7 as stated fails: the session is in the registry and creating the command channel fails,
a transport-level failure, yet the handler answers 200 with empty output. -/
theorem executeCommand_channel_failure_counterexample :
    ShouldBindJSON (.ok ⟨"a", "ls"⟩) = .ok ⟨"a", "ls"⟩
    ∧ TransportFailure registryA brokenEnv ⟨"a", "ls"⟩
    ∧ Handler.ExecuteCommand registryA brokenEnv (.ok ⟨"a", "ls"⟩) = .json 200 (.output "") := by
  refine ⟨rfl, ?_, by decide⟩
  exact Or.inr ⟨sessionA, 1, by decide, rfl, by simp [brokenEnv]⟩

/-- C7 (amended): for a well-formed execute-command request whose session, if registered, carries
a connection, the handler answers with a request error exactly when the session id is not in the
registry, and then with 404 `session not found`; when the session is registered it answers 200
with the output `ssh.ExecuteCommand` returned, whether or not that call failed: the empty output
when the command channel could not be created, the captured combined output otherwise. -/
theorem executeCommand_status (sm : SessionManager) (env : ExecEnv)
    (body : Except String ExecuteCommandRequest) (req : ExecuteCommandRequest)
    (hb : ShouldBindJSON body = .ok req)
    (hc : ∀ p, mapGet sm.sessions req.SessionID = some p → ∃ s c, p = some s ∧ s.Client = some c) :
    ((Handler.ExecuteCommand sm env body).status ≠ some 200 ↔
        mapGet sm.sessions req.SessionID = none)
    ∧ (mapGet sm.sessions req.SessionID = none →
        Handler.ExecuteCommand sm env body = .json 404 (.error "session not found"))
    ∧ (∀ s c, mapGet sm.sessions req.SessionID = some (some s) → s.Client = some c →
        Handler.ExecuteCommand sm env body =
          .json 200 (.output (match env.newSession c with
            | some _ => ""
            | none => (env.combinedOutput c req.Command).1))) := by
  have hpresent : ∀ s c, mapGet sm.sessions req.SessionID = some (some s) → s.Client = some c →
      Handler.ExecuteCommand sm env body =
        .json 200 (.output (match env.newSession c with
          | some _ => ""
          | none => (env.combinedOutput c req.Command).1)) := by
    intro s c hs hcl
    simp only [Handler.ExecuteCommand, hb, getSession_eq, hs, hcl, ssh.ExecuteCommand]
    cases hn : env.newSession c with
    | some e => rfl
    | none =>
      rcases hco : env.combinedOutput c req.Command with ⟨out, err⟩
      cases err <;> rfl
  have habsent : mapGet sm.sessions req.SessionID = none →
      Handler.ExecuteCommand sm env body = .json 404 (.error "session not found") := by
    intro hn
    simp only [Handler.ExecuteCommand, hb, getSession_eq, hn]
  refine ⟨?_, habsent, hpresent⟩
  cases hg : mapGet sm.sessions req.SessionID with
  | none => simp [habsent hg, HandlerResult.status]
  | some p =>
    obtain ⟨s, c, hp, hcl⟩ := hc p hg
    subst hp
    simp [hpresent s c hg hcl, HandlerResult.status]

theorem executeCommand_status_witness :
    ShouldBindJSON (.ok ⟨"a", "false"⟩) = .ok ⟨"a", "false"⟩
    ∧ ((Handler.ExecuteCommand registryA failingEnv (.ok ⟨"a", "false"⟩)).status ≠ some 200 ↔
        mapGet registryA.sessions "a" = none)
    ∧ (mapGet registryA.sessions "a" = none →
        Handler.ExecuteCommand registryA failingEnv (.ok ⟨"a", "false"⟩) =
          .json 404 (.error "session not found"))
    ∧ (∀ s c, mapGet registryA.sessions "a" = some (some s) → s.Client = some c →
        Handler.ExecuteCommand registryA failingEnv (.ok ⟨"a", "false"⟩) =
          .json 200 (.output (match failingEnv.newSession c with
            | some _ => ""
            | none => (failingEnv.combinedOutput c "false").1))) :=
  ⟨rfl,
    executeCommand_status registryA failingEnv (.ok ⟨"a", "false"⟩) ⟨"a", "false"⟩ rfl
      (by
        intro p hp
        have : p = some sessionA := by
          have h : mapGet registryA.sessions "a" = some (some sessionA) := by decide
          rw [h] at hp
          exact (Option.some.inj hp).symm
        exact ⟨sessionA, 1, this, rfl⟩)⟩

/-! ## Claims on the pumps of the terminal relay -/

theorem stdinPump_cons (m : Bytes) (rest : List WsRead) :
    stdinPump (WsRead.message m false :: rest) =
      (effectOf m :: (stdinPump rest).1, (stdinPump rest).2) := by
  cases h : resizeOf m with
  | none => simp [stdinPump, effectOf, h]
  | some rc => simp [stdinPump, effectOf, h]

theorem stdinPump_append (msgs : List Bytes) (tail : List WsRead) :
    stdinPump ((msgs.map fun m => WsRead.message m false) ++ tail) =
      (msgs.map effectOf ++ (stdinPump tail).1, (stdinPump tail).2) := by
  induction msgs with
  | nil => rfl
  | cons m rest ih =>
    rw [List.map_cons, List.cons_append, stdinPump_cons, ih]
    rfl

theorem stdinPump_messages (msgs : List Bytes) :
    stdinPump (msgs.map fun m => WsRead.message m false) = (msgs.map effectOf, .reading) := by
  have h := stdinPump_append msgs []
  simpa [stdinPump] using h

theorem stdinPump_messages_error (msgs : List Bytes) :
    stdinPump ((msgs.map fun m => WsRead.message m false) ++ [WsRead.error]) =
      (msgs.map effectOf ++ [Effect.stdinClose], .returned) := by
  rw [stdinPump_append]
  rfl

/-- C9: for every finite sequence of incoming messages whose stdin writes all succeed, the stdin
pump issues to the shell channel exactly one effect per message, in arrival order: the window
change for a message handled as a resize, the stdin write of its bytes for any other; it is then
blocked in the next read, and when that read fails the only further effect is closing stdin. -/
theorem stdinPump_order (msgs : List Bytes) :
    stdinPump (msgs.map fun m => WsRead.message m false) = (msgs.map effectOf, .reading)
    ∧ stdinPump ((msgs.map fun m => WsRead.message m false) ++ [WsRead.error]) =
        (msgs.map effectOf ++ [Effect.stdinClose], .returned) :=
  ⟨stdinPump_messages msgs, stdinPump_messages_error msgs⟩

/-- C6 fails on the code at a read that returns bytes together with end-of-stream: the stdout
pump looks at the error first, closes `done` and returns, and the bytes `hello\n` of that read
are never sent. -/
theorem stdoutPump_drops_bytes_read_with_eof :
    stdoutPump helloThenEof = ([Effect.closeDone], .returned)
    ∧ (sentMessages (stdoutPump helloThenEof).1).flatten = []
    ∧ (helloThenEof.map ReadResult.data).flatten = ascii "hello\n"
    ∧ (∀ r ∈ helloThenEof, r.data.length ≤ bufSize ∧ r.sendFails = false) := by
  decide

theorem stdoutPump_stopped (script more : List ReadResult)
    (h : script.any ReadResult.stops = true) :
    stdoutPump (script ++ more) = stdoutPump script := by
  induction script with
  | nil => simp at h
  | cons r rest ih =>
    simp only [List.cons_append, stdoutPump]
    by_cases he : r.err ≠ none
    · simp [he]
    · by_cases hd : r.data.length > 0
      · by_cases hs : r.sendFails = true
        · simp [he, hd, hs]
        · have : rest.any ReadResult.stops = true := by
            simpa [ReadResult.stops, he, hd, hs] using h
          simp [he, hd, hs, ih this]
      · have : rest.any ReadResult.stops = true := by
          simpa [ReadResult.stops, he, hd] using h
        simp [he, hd, ih this]

theorem stdoutPump_done (script : List ReadResult) :
    doneCloses (stdoutPump script).1 = (if script.any ReadResult.stops then 1 else 0)
    ∧ (stdoutPump script).2 = (if script.any ReadResult.stops then .returned else .reading)
    ∧ (script.any ReadResult.stops = true →
        (stdoutPump script).1.getLast? = some Effect.closeDone) := by
  induction script with
  | nil => simp [stdoutPump, doneCloses]
  | cons r rest ih =>
    obtain ⟨ih1, ih2, ih3⟩ := ih
    simp only [stdoutPump, List.any_cons]
    by_cases he : r.err ≠ none
    · simp [he, ReadResult.stops, doneCloses]
    · by_cases hd : r.data.length > 0
      · by_cases hs : r.sendFails = true
        · simp [he, hd, hs, ReadResult.stops, doneCloses]
        · have hstop : r.stops = false := by simp [ReadResult.stops, he, hs]
          simp only [he, hd, hs, hstop, if_true, if_false, Bool.false_or]
          refine ⟨?_, ih2, ?_⟩
          · simpa [doneCloses] using ih1
          · intro h
            have h3 := ih3 h
            cases hl : (stdoutPump rest).1 with
            | nil => simp [hl] at h3
            | cons x xs =>
              rw [hl] at h3
              simpa [List.getLast?_cons_cons] using h3
      · have hstop : r.stops = false := by simp [ReadResult.stops, he, hd]
        simp only [he, hd, hstop, if_false, Bool.false_or]
        exact ⟨ih1, ih2, ih3⟩

theorem stderrPump_no_done (script : List ReadResult) :
    Effect.closeDone ∉ (stderrPump script).1 := by
  induction script with
  | nil => simp [stderrPump]
  | cons r rest ih =>
    simp only [stderrPump]
    by_cases he : r.err ≠ none
    · simp [he]
    · by_cases hd : r.data.length > 0
      · by_cases hs : r.sendFails = true
        · simp [he, hd, hs]
        · simp [he, hd, hs, ih]
      · simp [he, hd, ih]

theorem stdinPump_no_done (script : List WsRead) :
    Effect.closeDone ∉ (stdinPump script).1 := by
  induction script with
  | nil => simp [stdinPump]
  | cons r rest ih =>
    cases r with
    | error => simp [stdinPump]
    | message data wf =>
      simp only [stdinPump]
      cases h : resizeOf data with
      | none =>
        by_cases hw : wf = true
        · simp [hw]
        · simp [hw, ih]
      | some rc => simp [ih]

/-- C10: in every run of the stdout pump `close(done)` is called once if a round stops the pump
(a read error or end-of-stream, or a failed send) and not at all otherwise; when it is called
the pump has returned, the close is its last effect, and whatever further reads were scripted
change nothing (no further read, send or close); the stderr pump and the stdin pump never call
`close(done)`. -/
theorem done_closed_once (script more errScript : List ReadResult) (inScript : List WsRead) :
    doneCloses (stdoutPump script).1 = (if script.any ReadResult.stops then 1 else 0)
    ∧ (stdoutPump script).2 = (if script.any ReadResult.stops then .returned else .reading)
    ∧ (script.any ReadResult.stops = true →
        (stdoutPump script).1.getLast? = some Effect.closeDone
        ∧ stdoutPump (script ++ more) = stdoutPump script)
    ∧ Effect.closeDone ∉ (stderrPump errScript).1
    ∧ Effect.closeDone ∉ (stdinPump inScript).1 := by
  obtain ⟨h1, h2, h3⟩ := stdoutPump_done script
  exact ⟨h1, h2, fun h => ⟨h3 h, stdoutPump_stopped script more h⟩,
    stderrPump_no_done errScript, stdinPump_no_done inScript⟩

theorem done_closed_once_witness :
    doneCloses (stdoutPump sampleReads).1 = 1
    ∧ (stdoutPump sampleReads).2 = .returned
    ∧ (stdoutPump sampleReads).1.getLast? = some Effect.closeDone
    ∧ stdoutPump (sampleReads ++ sampleReads) = stdoutPump sampleReads
    ∧ Effect.closeDone ∉ (stderrPump sampleReads).1
    ∧ Effect.closeDone ∉ (stdinPump [WsRead.message (ascii "ls") false, WsRead.error]).1 := by
  obtain ⟨h1, h2, h3, h4, h5⟩ :=
    done_closed_once sampleReads sampleReads sampleReads
      [WsRead.message (ascii "ls") false, WsRead.error]
  have hs : sampleReads.any ReadResult.stops = true := by decide
  rw [hs] at h1 h2
  exact ⟨h1, h2, (h3 hs).1, (h3 hs).2, h4, h5⟩

/-! ## Decimal text and `parseInt` -/

theorem digitsValue_snoc (ds : Bytes) (d : Nat) :
    digitsValue (ds ++ [d]) = digitsValue ds * 10 + (d - 48) := by
  simp [digitsValue, List.foldl_append]

theorem decimalAux_spec (fuel : Nat) :
    ∀ n acc, n < fuel → ∃ ds, decimalAux fuel n acc = ds ++ acc
      ∧ (∀ c ∈ ds, isDigit c = true)
      ∧ digitsValue ds = n
      ∧ (n = 0 → ds = [48])
      ∧ (n ≠ 0 → ∃ c rest, ds = c :: rest ∧ 49 ≤ c ∧ c ≤ 57) := by
  induction fuel with
  | zero => intro n acc h; omega
  | succ fuel ih =>
    intro n acc h
    by_cases h10 : n < 10
    · refine ⟨[48 + n], by simp [decimalAux, h10], ?_, ?_, ?_, ?_⟩
      · intro c hc
        simp at hc
        subst hc
        simp [isDigit]
        omega
      · simp [digitsValue]
      · intro h0; simp [h0]
      · intro h0
        exact ⟨48 + n, [], rfl, by omega, by omega⟩
    · have hlt : n / 10 < fuel := by omega
      obtain ⟨ds, hds, hall, hval, _, hhead⟩ := ih (n / 10) ((48 + n % 10) :: acc) hlt
      refine ⟨ds ++ [48 + n % 10], ?_, ?_, ?_, ?_, ?_⟩
      · simp [decimalAux, h10, hds]
      · intro c hc
        rcases List.mem_append.1 hc with h1 | h1
        · exact hall c h1
        · simp at h1
          subst h1
          simp [isDigit]
          omega
      · rw [digitsValue_snoc, hval]
        omega
      · intro h0; omega
      · intro _
        obtain ⟨c, rest, hc, h1, h2⟩ := hhead (by omega)
        exact ⟨c, rest ++ [48 + n % 10], by simp [hc], h1, h2⟩

theorem decimal_spec (n : Nat) :
    (∀ c ∈ decimal n, isDigit c = true)
    ∧ digitsValue (decimal n) = n
    ∧ (n = 0 → decimal n = [48])
    ∧ (n ≠ 0 → ∃ c rest, decimal n = c :: rest ∧ 49 ≤ c ∧ c ≤ 57) := by
  obtain ⟨ds, hds, h1, h2, h3, h4⟩ := decimalAux_spec (n + 1) n [] (by omega)
  have : decimal n = ds := by simp [decimal, hds]
  rw [this]
  exact ⟨h1, h2, h3, h4⟩

theorem decimal_cons (n : Nat) :
    ∃ c rest, decimal n = c :: rest ∧ 48 ≤ c ∧ c ≤ 57 := by
  obtain ⟨_, _, h3, h4⟩ := decimal_spec n
  by_cases h0 : n = 0
  · exact ⟨48, [], h3 h0, by omega, by omega⟩
  · obtain ⟨c, rest, hc, h1, h2⟩ := h4 h0
    exact ⟨c, rest, hc, by omega, h2⟩

theorem parseInt_digits (ds : Bytes) (c : Nat) (rest : Bytes) (hds : ds = c :: rest)
    (h48 : 48 ≤ c) (h57 : c ≤ 57) (hall : ∀ x ∈ ds, isDigit x = true) :
    parseInt ds =
      if -(2 : Int) ^ (intSize - 1) ≤ (digitsValue ds : Int)
          ∧ (digitsValue ds : Int) < (2 : Int) ^ (intSize - 1)
      then some (digitsValue ds : Int) else none := by
  have hh : ds.head? = some c := by simp [hds]
  have hne : ds ≠ [] := by simp [hds]
  have hall2 : ds.all isDigit = true := by simpa using hall
  have h45 : ¬ c = 45 := by omega
  have h43 : ¬ c = 43 := by omega
  simp only [parseInt, hh, Option.some.injEq, h45, h43, decide_False, Bool.or_self,
    Bool.false_eq_true, if_false, hall2, Bool.not_true, Bool.or_false, decide_eq_true_eq, hne]

theorem parseInt_neg_digits (ds : Bytes) (c : Nat) (rest : Bytes) (hds : ds = c :: rest)
    (hall : ∀ x ∈ ds, isDigit x = true) :
    parseInt (45 :: ds) =
      if -(2 : Int) ^ (intSize - 1) ≤ -(digitsValue ds : Int)
          ∧ -(digitsValue ds : Int) < (2 : Int) ^ (intSize - 1)
      then some (-(digitsValue ds : Int)) else none := by
  have hne : ds ≠ [] := by simp [hds]
  have hall2 : ds.all isDigit = true := by simpa using hall
  simp only [parseInt, List.head?_cons, decide_True, Bool.true_or, if_true, List.tail_cons,
    hall2, Bool.not_true, Bool.or_false, decide_eq_true_eq, hne, if_false]

theorem parseInt_intText (z : Int) (hlo : -(2 : Int) ^ 63 ≤ z) (hhi : z < (2 : Int) ^ 63) :
    parseInt (intText z) = some z := by
  unfold intText
  by_cases hz : z < 0
  · simp only [hz, if_true]
    have hcast : -((z.natAbs : Nat) : Int) = z := by omega
    obtain ⟨hall, hval, _, _⟩ := decimal_spec z.natAbs
    obtain ⟨c, rest, hc, _, _⟩ := decimal_cons z.natAbs
    rw [parseInt_neg_digits _ c rest hc hall, hval, hcast]
    exact if_pos ⟨hlo, hhi⟩
  · simp only [hz, if_false]
    have hcast : ((z.toNat : Nat) : Int) = z := by omega
    obtain ⟨hall, hval, _, _⟩ := decimal_spec z.toNat
    obtain ⟨c, rest, hc, h1, h2⟩ := decimal_cons z.toNat
    rw [parseInt_digits _ c rest hc h1 h2 hall, hval, hcast]
    exact if_pos ⟨hlo, hhi⟩

/-! ## The decoder on a resize frame -/

theorem feed_digit_num1 (key lit : Bytes) (ms : List (Bytes × Shallow)) (c : Nat)
    (hc : isDigit c = true) :
    (inNumber .num1 key lit ms).feed c = inNumber .num1 key (lit ++ [c]) ms := by
  simp [inNumber, Decoder.feed, Scanner.next, state1, hc, Mode.inNum, Mode.inStr]

theorem feed_digits_num1 (ds : Bytes) :
    ∀ lit key ms, (∀ c ∈ ds, isDigit c = true) →
      ds.foldl Decoder.feed (inNumber .num1 key lit ms) = inNumber .num1 key (lit ++ ds) ms := by
  induction ds with
  | nil => intro lit key ms _; simp
  | cons c rest ih =>
    intro lit key ms h
    rw [List.foldl_cons, feed_digit_num1 key lit ms c (h c (by simp)),
      ih _ _ _ (fun x hx => h x (by simp [hx]))]
    simp

theorem feed_first_digit (key lit : Bytes) (kind : Shallow) (ms : List (Bytes × Shallow))
    (c : Nat) (h1 : 49 ≤ c) (h2 : c ≤ 57) :
    (atValue key kind lit ms).feed c = inNumber .num1 key [c] ms := by
  have e1 : isSpace c = false := by simp [isSpace]; omega
  have e2 : ¬ c = 123 := by omega
  have e3 : ¬ c = 91 := by omega
  have e4 : ¬ c = 34 := by omega
  have e5 : ¬ c = 45 := by omega
  have e6 : ¬ c = 48 := by omega
  have e7 : ¬ c = 116 := by omega
  have e8 : ¬ c = 102 := by omega
  have e9 : ¬ c = 110 := by omega
  simp [atValue, inNumber, Decoder.feed, Scanner.next, stateBeginValue, e1, e2, e3, e4, e5, e6,
    e7, e8, e9, h1, h2, Mode.inNum, kindOfFirst]

theorem feed_zero (key lit : Bytes) (kind : Shallow) (ms : List (Bytes × Shallow)) :
    (atValue key kind lit ms).feed 48 = inNumber .num0 key [48] ms := by
  simp [atValue, inNumber, Decoder.feed, Scanner.next, stateBeginValue, isSpace, Mode.inNum,
    kindOfFirst]

theorem feed_minus (key lit : Bytes) (kind : Shallow) (ms : List (Bytes × Shallow)) :
    (atValue key kind lit ms).feed 45 = inNumber .neg key [45] ms := by
  simp [atValue, inNumber, Decoder.feed, Scanner.next, stateBeginValue, isSpace, Mode.inNum,
    kindOfFirst]

theorem feed_neg_digit (key lit : Bytes) (ms : List (Bytes × Shallow))
    (c : Nat) (h1 : 49 ≤ c) (h2 : c ≤ 57) :
    (inNumber .neg key lit ms).feed c = inNumber .num1 key (lit ++ [c]) ms := by
  have e6 : ¬ c = 48 := by omega
  simp [inNumber, Decoder.feed, Scanner.next, stateNeg, e6, h1, h2, Mode.inNum, Mode.inStr]

theorem feed_decimal (n : Nat) (key lit : Bytes) (kind : Shallow) (ms : List (Bytes × Shallow)) :
    ∃ m, (m = Mode.num0 ∨ m = Mode.num1) ∧
      (decimal n).foldl Decoder.feed (atValue key kind lit ms) = inNumber m key (decimal n) ms := by
  obtain ⟨hall, _, h0, hpos⟩ := decimal_spec n
  by_cases hn : n = 0
  · refine ⟨.num0, Or.inl rfl, ?_⟩
    rw [h0 hn, List.foldl_cons, feed_zero]
    rfl
  · obtain ⟨c, rest, hc, h1, h2⟩ := hpos hn
    refine ⟨.num1, Or.inr rfl, ?_⟩
    rw [hc] at hall ⊢
    rw [List.foldl_cons, feed_first_digit key lit kind ms c h1 h2,
      feed_digits_num1 rest _ _ _ (fun x hx => hall x (by simp [hx]))]
    simp

theorem feed_neg_decimal (n : Nat) (hn : n ≠ 0) (key lit : Bytes) (kind : Shallow)
    (ms : List (Bytes × Shallow)) :
    (45 :: decimal n).foldl Decoder.feed (atValue key kind lit ms) =
      inNumber .num1 key (45 :: decimal n) ms := by
  obtain ⟨hall, _, _, hpos⟩ := decimal_spec n
  obtain ⟨c, rest, hc, h1, h2⟩ := hpos hn
  rw [hc] at hall ⊢
  rw [List.foldl_cons, feed_minus, List.foldl_cons, feed_neg_digit key _ ms c h1 h2,
    feed_digits_num1 rest _ _ _ (fun x hx => hall x (by simp [hx]))]
  simp

theorem feed_intText (z : Int) (key lit : Bytes) (kind : Shallow) (ms : List (Bytes × Shallow)) :
    ∃ m, (m = Mode.num0 ∨ m = Mode.num1) ∧
      (intText z).foldl Decoder.feed (atValue key kind lit ms) = inNumber m key (intText z) ms := by
  unfold intText
  by_cases hz : z < 0
  · simp only [hz, if_true]
    exact ⟨.num1, Or.inr rfl, feed_neg_decimal z.natAbs (by omega) key lit kind ms⟩
  · simp only [hz, if_false]
    exact feed_decimal z.toNat key lit kind ms

theorem feed_rows_key (m : Mode) (hm : m = Mode.num0 ∨ m = Mode.num1) (key lit : Bytes)
    (ms : List (Bytes × Shallow)) :
    (ascii ",\"rows\":").foldl Decoder.feed (inNumber m key lit ms) =
      atValue (ascii "rows") (.number []) lit (ms ++ [(key, .number lit)]) := by
  have hq : ascii ",\"rows\":" = [44, 34, 114, 111, 119, 115, 34, 58] := by decide
  have hr : ascii "rows" = [114, 111, 119, 115] := by decide
  rw [hq, hr]
  rcases hm with h | h <;> subst h <;>
    simp [inNumber, atValue, List.foldl, Decoder.feed, Scanner.next, state1, state0,
      stateEndValue, isSpace, isDigit, Mode.inNum, Mode.inStr, Mode.inLit, Decoder.emit,
      stateBeginString, stateInString, stateBeginValue, Scanner.error]

theorem feed_closing_brace (m : Mode) (hm : m = Mode.num0 ∨ m = Mode.num1) (key lit : Bytes)
    (ms : List (Bytes × Shallow)) :
    (ascii "\x7d").foldl Decoder.feed (inNumber m key lit ms) =
      atEnd key (.number []) lit (ms ++ [(key, .number lit)]) := by
  have hq : ascii "\x7d" = [125] := by decide
  rw [hq]
  rcases hm with h | h <;> subst h <;>
    simp [inNumber, atEnd, List.foldl, Decoder.feed, Scanner.next, state1, state0,
      stateEndValue, isSpace, isDigit, Mode.inNum, Mode.inStr, Mode.inLit, Decoder.emit,
      Scanner.popParseState, Scanner.error]

theorem feed_head :
    (ascii "\x7b\"type\":\"resize\",\"cols\":").foldl Decoder.feed Decoder.init =
      atValue (ascii "cols") (.string []) (ascii "resize")
        [(ascii "type", .string (ascii "resize"))] := by
  rfl

theorem storeField_type (st : ResizeMsg × Bool) :
    storeField st (ascii "type", .string (ascii "resize")) =
      ({ st.1 with Type_ := ascii "resize" }, st.2) := by
  rfl

theorem storeField_cols (st : ResizeMsg × Bool) (lit : Bytes) (n : Int)
    (h : parseInt lit = some n) :
    storeField st (ascii "cols", .number lit) = ({ st.1 with Cols := n }, st.2) := by
  have : storeField st (ascii "cols", .number lit) =
      match parseInt lit with
      | some n => ({ st.1 with Cols := n }, st.2)
      | none => (st.1, true) := rfl
  rw [this, h]

theorem storeField_rows (st : ResizeMsg × Bool) (lit : Bytes) (n : Int)
    (h : parseInt lit = some n) :
    storeField st (ascii "rows", .number lit) = ({ st.1 with Rows := n }, st.2) := by
  have : storeField st (ascii "rows", .number lit) =
      match parseInt lit with
      | some n => ({ st.1 with Rows := n }, st.2)
      | none => (st.1, true) := rfl
  rw [this, h]

theorem unmarshal_resizeMessage (cols rows : Int)
    (hc : -(2 : Int) ^ 63 ≤ cols ∧ cols < (2 : Int) ^ 63)
    (hr : -(2 : Int) ^ 63 ≤ rows ∧ rows < (2 : Int) ^ 63) :
    Unmarshal (resizeMessage cols rows) = some ⟨ascii "resize", cols, rows⟩ := by
  obtain ⟨m1, hm1, h1⟩ := feed_intText cols (ascii "cols") (ascii "resize") (.string [])
    [(ascii "type", .string (ascii "resize"))]
  obtain ⟨m2, hm2, h2⟩ := feed_intText rows (ascii "rows") (intText cols) (.number [])
    ([(ascii "type", .string (ascii "resize"))] ++ [(ascii "cols", .number (intText cols))])
  have hfold : (resizeMessage cols rows).foldl Decoder.feed Decoder.init =
      atEnd (ascii "rows") (.number []) (intText rows)
        ([(ascii "type", .string (ascii "resize"))] ++ [(ascii "cols", .number (intText cols))]
          ++ [(ascii "rows", .number (intText rows))]) := by
    unfold resizeMessage
    rw [List.foldl_append, List.foldl_append, List.foldl_append, List.foldl_append, feed_head,
      h1, feed_rows_key m1 hm1, h2, feed_closing_brace m2 hm2]
  unfold Unmarshal
  simp only [hfold]
  simp only [atEnd, Scanner.eof, List.cons_append, List.nil_append, List.foldl_cons,
    List.foldl_nil, storeField_type,
    storeField_cols _ _ _ (parseInt_intText cols hc.1 hc.2),
    storeField_rows _ _ _ (parseInt_intText rows hr.1 hr.2)]
  rfl

/-! ## What the decoder never takes for a resize -/

theorem feed_scan (d : Decoder) (c : Nat) : (d.feed c).scan = d.scan.next c := by
  unfold Decoder.feed
  simp only []
  repeat' split
  all_goals rfl

theorem foldl_feed_scan (data : Bytes) :
    ∀ d : Decoder, (data.foldl Decoder.feed d).scan = data.foldl Scanner.next d.scan := by
  induction data with
  | nil => intro d; rfl
  | cons c rest ih =>
    intro d
    rw [List.foldl_cons, List.foldl_cons, ih, feed_scan]

theorem error_not_fresh (s : Scanner) : ¬ s.error.fresh := by
  simp [Scanner.fresh, Scanner.error]

theorem push_not_fresh (s : Scanner) (m : Mode) (p : ParseState) :
    ¬ (s.pushParseState m p).fresh := by
  unfold Scanner.pushParseState
  split <;> simp [Scanner.fresh]

theorem pop_not_fresh (s : Scanner) : ¬ s.popParseState.fresh := by
  unfold Scanner.popParseState
  split <;> simp [Scanner.fresh]

theorem endTop_not_fresh (s : Scanner) (c : Nat) (h : ¬ s.fresh) : ¬ (stateEndTop s c).fresh := by
  unfold stateEndTop
  split
  · exact h
  · exact error_not_fresh s

theorem endValue_not_fresh (s : Scanner) (c : Nat) : ¬ (stateEndValue s c).fresh := by
  unfold stateEndValue
  cases hps : s.parseState with
  | nil =>
    simp only []
    apply endTop_not_fresh
    simp [Scanner.fresh]
  | cons ps rest =>
    simp only []
    split
    · simp [Scanner.fresh]
    · cases ps <;> simp only [] <;> split_ifs <;>
        first
        | exact error_not_fresh s
        | exact pop_not_fresh s
        | simp [Scanner.fresh]

theorem beginValue_not_fresh (s : Scanner) (c : Nat) (hc : isSpace c = false) :
    ¬ (stateBeginValue s c).fresh := by
  unfold stateBeginValue
  rw [hc]
  simp only [Bool.false_eq_true, if_false]
  split_ifs <;>
    first
    | exact error_not_fresh s
    | exact push_not_fresh s _ _
    | simp [Scanner.fresh]

theorem next_not_fresh (s : Scanner) (c : Nat) (h : ¬ s.fresh) : ¬ (s.next c).fresh := by
  unfold Scanner.next
  cases hstep : s.step
  case endValue => exact endValue_not_fresh s c
  case endTop => exact endTop_not_fresh s c h
  case error => exact h
  case beginValue =>
    simp only []
    by_cases hc : isSpace c = true
    · simp only [stateBeginValue, hc, if_true]
      exact h
    · exact beginValue_not_fresh s c (by simpa using hc)
  case beginValueOrEmpty =>
    simp only [stateBeginValueOrEmpty]
    by_cases hc : isSpace c = true
    · simp only [hc, if_true]
      exact h
    · simp only [hc, if_false]
      by_cases h93 : c = 93
      · rw [if_pos h93]
        exact endValue_not_fresh s c
      · rw [if_neg h93]
        exact beginValue_not_fresh s c (by simpa using hc)
  case beginStringOrEmpty =>
    simp only [stateBeginStringOrEmpty, stateBeginString]
    split_ifs <;>
      first
      | exact h
      | exact endValue_not_fresh _ c
      | exact error_not_fresh s
      | simp [Scanner.fresh]
  case num0 =>
    simp only [state0]
    split_ifs <;> first | exact endValue_not_fresh s c | simp [Scanner.fresh]
  case num1 =>
    simp only [state1, state0]
    split_ifs <;> first | exact endValue_not_fresh s c | simp [Scanner.fresh]
  case dot0 =>
    simp only [stateDot0]
    split_ifs <;> first | exact h | exact endValue_not_fresh s c | simp [Scanner.fresh]
  case e0 =>
    simp only [stateE0]
    split_ifs <;> first | exact h | exact endValue_not_fresh s c
  all_goals
    simp only [stateBeginString, stateInString, stateInStringEsc, stateHex, stateNeg,
      stateDot, stateE, stateESign, stateLetter]
    split_ifs <;> first | exact h | exact error_not_fresh s | simp [Scanner.fresh]

theorem feed_top (d : Decoder) (c : Nat) (h : ¬ d.scan.fresh) : (d.feed c).top = d.top := by
  unfold Decoder.feed
  simp only []
  split
  · rename_i hps
    have hne : ¬ d.scan.step = .beginValue := fun e => h ⟨e, hps⟩
    simp [hne]
  all_goals repeat' split
  all_goals rfl

theorem foldl_feed_top (data : Bytes) :
    ∀ d : Decoder, ¬ d.scan.fresh →
      (data.foldl Decoder.feed d).top = d.top ∧ ¬ (data.foldl Decoder.feed d).scan.fresh := by
  induction data with
  | nil => intro d h; exact ⟨rfl, h⟩
  | cons c rest ih =>
    intro d h
    rw [List.foldl_cons]
    have h1 : ¬ (d.feed c).scan.fresh := by
      rw [feed_scan]
      exact next_not_fresh _ _ h
    obtain ⟨h2, h3⟩ := ih (d.feed c) h1
    exact ⟨by rw [h2, feed_top d c h], h3⟩

theorem feed_init_space (c : Nat) (h : isSpace c = true) : Decoder.init.feed c = Decoder.init := by
  simp [Decoder.feed, Decoder.init, Scanner.init, Scanner.next, stateBeginValue, h]

theorem feed_init_other (c : Nat) (h : isSpace c = false) (hc : c ≠ 123) :
    (Decoder.init.feed c).top ≠ some .object ∧ ¬ (Decoder.init.feed c).scan.fresh := by
  constructor
  · have htop : (Decoder.init.feed c).top =
        some (if c = 123 then .object else if c = 110 then .null else .other) := by
      simp [Decoder.feed, Decoder.init, Scanner.init, h]
    rw [htop, if_neg hc]
    split <;> simp
  · rw [feed_scan]
    exact beginValue_not_fresh _ c h

theorem not_object_of_first (data : Bytes) (h : firstNonSpace data ≠ some 123) :
    data.foldl Decoder.feed Decoder.init = Decoder.init
    ∨ (data.foldl Decoder.feed Decoder.init).top ≠ some .object := by
  induction data with
  | nil => exact Or.inl rfl
  | cons c rest ih =>
    rw [List.foldl_cons]
    by_cases hs : isSpace c = true
    · rw [feed_init_space c hs]
      apply ih
      simpa [firstNonSpace, hs] using h
    · have hs2 : isSpace c = false := by simpa using hs
      have hc : c ≠ 123 := by
        intro e
        subst e
        apply h
        simp [firstNonSpace, hs2]
      obtain ⟨h1, h2⟩ := feed_init_other c hs2 hc
      obtain ⟨h3, _⟩ := foldl_feed_top rest _ h2
      exact Or.inr (by rw [h3]; exact h1)

theorem resizeOf_none_of_invalid (data : Bytes) (h : checkValid data = false) :
    resizeOf data = none := by
  have : (data.foldl Decoder.feed Decoder.init).scan.eof = false := by
    rw [foldl_feed_scan]
    exact h
  simp [resizeOf, Unmarshal, this]

theorem unmarshal_of_not_object (data : Bytes)
    (h : (data.foldl Decoder.feed Decoder.init).top ≠ some .object) :
    Unmarshal data = none ∨ Unmarshal data = some ⟨[], 0, 0⟩ := by
  unfold Unmarshal
  simp only []
  split
  · cases htop : (data.foldl Decoder.feed Decoder.init).top with
    | none => exact Or.inl rfl
    | some k =>
      cases k with
      | object => exact absurd htop h
      | null => exact Or.inr rfl
      | other => exact Or.inl rfl
  · exact Or.inl rfl

theorem resizeOf_none_of_first (data : Bytes) (h : firstNonSpace data ≠ some 123) :
    resizeOf data = none := by
  have hu : Unmarshal data = none ∨ Unmarshal data = some ⟨[], 0, 0⟩ := by
    rcases not_object_of_first data h with h1 | h1
    · left
      unfold Unmarshal
      rw [h1]
      rfl
    · exact unmarshal_of_not_object data h1
  rcases hu with hu | hu
  · simp [resizeOf, hu]
  · rw [resizeOf, hu]
    rfl

theorem storeField_keeps_type (st : ResizeMsg × Bool) (kv : Bytes × Shallow)
    (h : selectsType kv.1 = false) : (storeField st kv).1.Type_ = st.1.Type_ := by
  unfold storeField
  unfold selectsType at h
  cases hk : unquoteBytes kv.1 with
  | none => rfl
  | some key =>
    rw [hk] at h
    simp only [decide_eq_false_iff_not] at h
    simp only []
    cases hf : fieldFor key with
    | none => rfl
    | some f =>
      cases f with
      | type => exact absurd hf h
      | cols =>
        simp only []
        repeat' split
        all_goals rfl
      | rows =>
        simp only []
        repeat' split
        all_goals rfl

theorem foldl_storeField_keeps_type (ms : List (Bytes × Shallow)) :
    ∀ st : ResizeMsg × Bool, (∀ kv ∈ ms, selectsType kv.1 = false) →
      (ms.foldl storeField st).1.Type_ = st.1.Type_ := by
  induction ms with
  | nil => intro st _; rfl
  | cons kv rest ih =>
    intro st h
    rw [List.foldl_cons, ih _ (fun x hx => h x (by simp [hx])),
      storeField_keeps_type st kv (h kv (by simp))]

theorem resizeOf_none_of_no_type (data : Bytes)
    (h : ∀ kv ∈ topLevelMembers data, selectsType kv.1 = false) : resizeOf data = none := by
  have hne : ¬ ([] : Bytes) = ascii "resize" := by decide
  have hkeep := foldl_storeField_keeps_type (topLevelMembers data) (⟨[], 0, 0⟩, false) h
  unfold topLevelMembers at hkeep
  unfold resizeOf Unmarshal
  simp only []
  split
  · rename_i m hm
    split at hm
    · split at hm
      · split at hm
        · exact absurd hm (by simp)
        · have hm2 := Option.some.inj hm
          rw [← hm2, hkeep, if_neg hne]
      · have hm2 := Option.some.inj hm
        rw [← hm2, if_neg hne]
      · exact absurd hm (by simp)
    · exact absurd hm (by simp)
  · rfl

/-! ## Claims on the stdin pump -/

set_option maxRecDepth 100000 in
theorem resizeOf_oversizedFrame : resizeOf oversizedFrame = none := by
  rfl

theorem stdinBytes_writes (msgs : List Bytes) :
    stdinBytes (msgs.map fun x => Effect.stdinWrite x false) = msgs.flatten := by
  unfold stdinBytes
  congr 1
  induction msgs with
  | nil => rfl
  | cons x rest ih => simp only [List.map_cons, List.filterMap_cons, ih]

theorem windowChanges_writes (msgs : List Bytes) :
    windowChanges (msgs.map fun x => Effect.stdinWrite x false) = [] := by
  unfold windowChanges
  induction msgs with
  | nil => rfl
  | cons x rest ih => simp only [List.map_cons, List.filterMap_cons, ih]

/-- C4 as stated fails for an integer outside the range of the Go type `int`: with `cols` 2^63 the
decoding of the frame reports an error, so the pump requests no window change and writes the
frame to the shell's stdin. -/
theorem resize_out_of_range_counterexample :
    resizeMessage 9223372036854775808 40 = oversizedFrame
    ∧ stdinPump [WsRead.message (resizeMessage 9223372036854775808 40) false] =
        ([Effect.stdinWrite oversizedFrame false], .reading) := by
  have h : resizeMessage 9223372036854775808 40 = oversizedFrame := by rfl
  refine ⟨h, ?_⟩
  rw [h]
  simp [stdinPump, resizeOf_oversizedFrame]

/-- C4 (amended): for all integers `cols` and `rows` that the Go type `int` holds (64 bits, from
-2^63 to 2^63 - 1), the frame with type resize and these `cols` and `rows` is handled as a resize:
the pump writes nothing to the shell's stdin for it, whatever a write would answer, and requests
exactly one window change, with `rows` first and `cols` second. -/
theorem resize_intercepted (cols rows : Int)
    (hc : -(2 : Int) ^ 63 ≤ cols ∧ cols < (2 : Int) ^ 63)
    (hr : -(2 : Int) ^ 63 ≤ rows ∧ rows < (2 : Int) ^ 63)
    (writeFails : Bool) (rest : List WsRead) :
    resizeOf (resizeMessage cols rows) = some (rows, cols)
    ∧ stdinPump (WsRead.message (resizeMessage cols rows) writeFails :: rest) =
        (Effect.windowChange rows cols :: (stdinPump rest).1, (stdinPump rest).2)
    ∧ stdinBytes (stdinPump [WsRead.message (resizeMessage cols rows) writeFails]).1 = []
    ∧ windowChanges (stdinPump [WsRead.message (resizeMessage cols rows) writeFails]).1 =
        [(rows, cols)] := by
  have h : resizeOf (resizeMessage cols rows) = some (rows, cols) := by
    simp [resizeOf, unmarshal_resizeMessage cols rows hc hr]
  refine ⟨h, ?_, ?_, ?_⟩
  · simp [stdinPump, h]
  · simp [stdinPump, h, stdinBytes]
  · simp [stdinPump, h, windowChanges]

theorem resize_intercepted_witness :
    resizeMessage 120 40 = resizeFrame
    ∧ resizeOf (resizeMessage 120 40) = some (40, 120)
    ∧ stdinPump (WsRead.message (resizeMessage 120 40) false :: []) =
        (Effect.windowChange 40 120 :: (stdinPump []).1, (stdinPump []).2)
    ∧ stdinBytes (stdinPump [WsRead.message (resizeMessage 120 40) false]).1 = []
    ∧ windowChanges (stdinPump [WsRead.message (resizeMessage 120 40) false]).1 = [(40, 120)] :=
  ⟨by rfl, resize_intercepted 120 40 (by decide) (by decide) false []⟩

/-- C5 as stated fails on its own example: the object that carries only the member `type` with
value resize decodes without error, `cols` and `rows` staying 0, so the pump requests a window
change with rows 0 and cols 0 and writes nothing to the shell's stdin. -/
theorem type_only_object_counterexample :
    stdinPump [WsRead.message typeOnlyFrame false] = ([Effect.windowChange 0 0], .reading)
    ∧ stdinBytes (stdinPump [WsRead.message typeOnlyFrame false]).1 = []
    ∧ typeOnlyFrame ≠ [] := by
  refine ⟨by rfl, by rfl, by decide⟩

/-- C5 (amended): every message that the decoding rejects or decodes with a type other than
resize is written byte-for-byte to the shell's stdin and triggers no window change, and for a
sequence of such messages whose writes succeed the bytes written to stdin are the messages in
arrival order.  Such are every message that is not valid JSON, every message whose first byte
after white space is not an opening brace (plain text, JSON values that are not objects), and
every object none of whose keys selects the field `Type`. -/
theorem literal_input_round_trips (msgs : List Bytes) (m : Bytes)
    (h : ∀ x ∈ msgs, resizeOf x = none) :
    stdinPump (msgs.map fun x => WsRead.message x false) =
        (msgs.map fun x => Effect.stdinWrite x false, .reading)
    ∧ stdinBytes (stdinPump (msgs.map fun x => WsRead.message x false)).1 = msgs.flatten
    ∧ windowChanges (stdinPump (msgs.map fun x => WsRead.message x false)).1 = []
    ∧ (checkValid m = false → resizeOf m = none)
    ∧ (firstNonSpace m ≠ some 123 → resizeOf m = none)
    ∧ ((∀ kv ∈ topLevelMembers m, selectsType kv.1 = false) → resizeOf m = none) := by
  have hmap : msgs.map effectOf = msgs.map fun x => Effect.stdinWrite x false := by
    apply List.map_congr_left
    intro x hx
    simp [effectOf, h x hx]
  have hrun : stdinPump (msgs.map fun x => WsRead.message x false) =
      (msgs.map fun x => Effect.stdinWrite x false, .reading) := by
    rw [stdinPump_messages, hmap]
  refine ⟨hrun, ?_, ?_, resizeOf_none_of_invalid m, resizeOf_none_of_first m,
    resizeOf_none_of_no_type m⟩
  · rw [hrun]
    exact stdinBytes_writes msgs
  · rw [hrun]
    exact windowChanges_writes msgs

theorem literal_input_round_trips_witness :
    (∀ x ∈ literalInputs, resizeOf x = none)
    ∧ stdinPump (literalInputs.map fun x => WsRead.message x false) =
        (literalInputs.map fun x => Effect.stdinWrite x false, .reading)
    ∧ stdinBytes (stdinPump (literalInputs.map fun x => WsRead.message x false)).1 =
        literalInputs.flatten
    ∧ windowChanges (stdinPump (literalInputs.map fun x => WsRead.message x false)).1 = []
    ∧ (checkValid (ascii "ls -la\n") = false → resizeOf (ascii "ls -la\n") = none)
    ∧ (firstNonSpace (ascii "ls -la\n") ≠ some 123 → resizeOf (ascii "ls -la\n") = none)
    ∧ ((∀ kv ∈ topLevelMembers (ascii "ls -la\n"), selectsType kv.1 = false) →
        resizeOf (ascii "ls -la\n") = none) := by
  have hyp : ∀ x ∈ literalInputs, resizeOf x = none := by
    intro x hx
    simp only [literalInputs, List.mem_cons, List.mem_singleton, List.not_mem_nil, or_false] at hx
    rcases hx with rfl | rfl | rfl <;> rfl
  exact ⟨hyp, literal_input_round_trips literalInputs (ascii "ls -la\n") hyp⟩

end SshBaddie
